import Mathlib

/-!
Verification of the background-processing pipeline and versioned store of the
infra-diagram application (`src/services/database.js`, `src/services/session-processor.js`,
`src/services/queue-worker.js`, `src/routes/api.js`).

The SQLite database is embedded as a pure state value (`DB`): each table is a
list of row records held in insertion order (AUTOINCREMENT ids are modelled by
per-table counters, `CURRENT_TIMESTAMP` by a monotone `now` counter).  Each
prepared statement / high-level `database.js` function becomes a pure function
`DB → DB × α`.  External collaborators (Wave transcript source, Perplexity
analyzer, Mermaid renderer) are modelled by an oracle `Env` recording the
outcome of each collaborator call; a thrown JS error is an `Except.error`.
JS object-property access (used by the worker's poll guard) is modelled by an
association list of string keys, so that reading an absent property yields
`undefined` exactly as in JS.
-/

namespace InfraDiagram

/-- Row of the `customers` table (id, name, is_unknown, updated_at). -/
structure Customer where
  id : Nat
  name : String
  isUnknown : Bool
  updatedAt : Nat
deriving Repr, DecidableEq

/-- Row of the `diagrams` table. -/
structure Diagram where
  id : Nat
  customerId : Nat
deriving Repr, DecidableEq

/-- Row of the `diagram_versions` table. `pngPath` is the nullable rendered-image path. -/
structure DiagramVersion where
  id : Nat
  diagramId : Nat
  version : Nat
  mermaidCode : String
  pngPath : Option String
  notes : Option String
deriving Repr, DecidableEq

/-- Row of the `diagram_sessions` table. -/
structure DiagramSession where
  id : Nat
  diagramId : Nat
  sessionUrl : String
deriving Repr, DecidableEq

/-- One action item as produced by the analyzer (`{owner, item}` object). -/
structure OwnedItem where
  owner : Option String
  item : String
deriving Repr, DecidableEq

/-- Row of the `session_notes` table.  The serialized JSON payload columns
(`action_items`, `components`, `gaps`) are modelled by the structured values
they serialize (`JSON.stringify` is injective on them); a SQL `NULL` is `none`. -/
structure SessionNote where
  id : Nat
  sessionUrl : String
  customerId : Option Nat
  callType : String
  title : Option String
  summary : Option String
  actionItems : Option (List OwnedItem)
  components : Option (List String)
  gaps : Option (List String)
  skipped : Bool
  sessionDate : Option String
deriving Repr, DecidableEq

/-- Row of the `action_items` table. -/
structure ActionItem where
  id : Nat
  sessionNoteId : Option Nat
  customerId : Nat
  owner : String
  item : String
  completed : Bool
  completedAt : Option Nat
  sessionDate : Option String
  sessionTitle : Option String
deriving Repr, DecidableEq

/-- The `status` column of `processing_queue`. -/
inductive JobStatus where
  | pending
  | processing
  | completed
  | failed
deriving Repr, DecidableEq

/-- Row of the `processing_queue` table. -/
structure QueueJob where
  id : Nat
  sessionUrl : String
  title : Option String
  status : JobStatus
  error : Option String
  resultSummary : Option String
  customerId : Option Nat
  createdAt : Nat
  startedAt : Option Nat
  completedAt : Option Nat
deriving Repr, DecidableEq

/-- The whole SQLite database.  `lastInsertRowid` mirrors better-sqlite3's
connection-global `sqlite3_last_insert_rowid()` (updated by every successful
INSERT, stale otherwise). -/
structure DB where
  customers : List Customer
  diagrams : List Diagram
  versions : List DiagramVersion
  diagramSessions : List DiagramSession
  notes : List SessionNote
  actionItems : List ActionItem
  queue : List QueueJob
  nextCustomerId : Nat := 1
  nextDiagramId : Nat := 1
  nextVersionId : Nat := 1
  nextDiagramSessionId : Nat := 1
  nextNoteId : Nat := 1
  nextActionItemId : Nat := 1
  nextQueueId : Nat := 1
  now : Nat := 0
  lastInsertRowid : Nat := 0
deriving Repr, DecidableEq

/-- JS string truthiness for an optional string (`null`/`undefined` and `""` are falsy). -/
def strTruthy : Option String → Bool
  | none => false
  | some s => !(s == "")

/-- JS `s || dflt` for a nullable string. -/
def jsStrOr (s : Option String) (dflt : String) : String :=
  match s with
  | some v => if v == "" then dflt else v
  | none => dflt

/-- `pat` is a prefix of the second list. -/
def charsPrefix : List Char → List Char → Bool
  | [], _ => true
  | _ :: _, [] => false
  | a :: as, b :: bs => a == b && charsPrefix as bs

/-- `pat` occurs as a contiguous substring. -/
def hasSubstr (pat : List Char) : List Char → Bool
  | [] => pat.isEmpty
  | h :: t => charsPrefix pat (h :: t) || hasSubstr pat t

/-- The characters of a string, lower-cased. -/
def lowerChars (s : String) : List Char := s.data.map Char.toLower

/-- SQLite `LIKE '%pat%'` (default case-insensitive for ASCII): the pattern
occurs as a substring of the value, compared lower-cased. -/
def likeContains (value pat : String) : Bool :=
  hasSubstr (lowerChars pat) (lowerChars value)

/-- Code-point order on character lists (SQLite BINARY collation for ASCII). -/
def charsLe : List Char → List Char → Bool
  | [], _ => true
  | _ :: _, [] => false
  | a :: as, b :: bs => if a == b then charsLe as bs else decide (a < b)

/-- String order used for `ORDER BY name`. -/
def strLeB (a b : String) : Bool := charsLe a.data b.data

/-! ## Customer operations (`customerOps`, `database.js`) -/

/-- `createCustomer(name, isUnknown)`: INSERT INTO customers; returns `lastInsertRowid`. -/
def createCustomer (db : DB) (name : String) (isUnknown : Bool) : DB × Nat :=
  let c : Customer := ⟨db.nextCustomerId, name, isUnknown, db.now⟩
  ({ db with customers := db.customers ++ [c],
             nextCustomerId := db.nextCustomerId + 1,
             now := db.now + 1,
             lastInsertRowid := c.id }, c.id)

/-- `getCustomer(id)`. -/
def getCustomer (db : DB) (id : Nat) : Option Customer :=
  db.customers.find? (fun c => c.id == id)

/-- `updateCustomer(id, name, isUnknown)`: also refreshes `updated_at`. -/
def updateCustomer (db : DB) (id : Nat) (name : String) (isUnknown : Bool) : DB :=
  let cs := db.customers.map (fun c =>
    if c.id == id then { c with name := name, isUnknown := isUnknown, updatedAt := db.now } else c)
  { db with customers := cs, now := db.now + 1 }

/-- `searchCustomers(query)`: SELECT * FROM customers WHERE name LIKE %query% ORDER BY name. -/
def searchCustomers (db : DB) (query : String) : List Customer :=
  (db.customers.filter (fun c => likeContains c.name query)).insertionSort
    (fun a b => strLeB a.name b.name = true)

/-! ## Diagram operations -/

/-- `createDiagram(customerId)`. -/
def createDiagram (db : DB) (customerId : Nat) : DB × Nat :=
  let d : Diagram := ⟨db.nextDiagramId, customerId⟩
  ({ db with diagrams := db.diagrams ++ [d],
             nextDiagramId := db.nextDiagramId + 1,
             lastInsertRowid := d.id }, d.id)

/-- `getDiagramByCustomer(customerId)`: ORDER BY created_at DESC LIMIT 1, i.e. the most
recently inserted diagram of the customer (rows are held in insertion order). -/
def getDiagramByCustomer (db : DB) (customerId : Nat) : Option Diagram :=
  (db.diagrams.filter (fun d => d.customerId == customerId)).getLast?

/-! ## Version operations -/

/-- `versionOps.getNextVersion`: SELECT COALESCE(MAX(version), 0) + 1. -/
def nextVersionNumber (db : DB) (diagramId : Nat) : Nat :=
  (((db.versions.filter (fun v => v.diagramId == diagramId)).map (fun v => v.version)).foldl
    Nat.max 0) + 1

/-- `createVersion(diagramId, mermaidCode, notes)`: inserts the next version number,
png_path NULL; returns `{id, version}`. -/
def createVersion (db : DB) (diagramId : Nat) (mermaidCode : String) (notes : Option String) :
    DB × (Nat × Nat) :=
  let v := nextVersionNumber db diagramId
  let row : DiagramVersion := ⟨db.nextVersionId, diagramId, v, mermaidCode, none, notes⟩
  ({ db with versions := db.versions ++ [row],
             nextVersionId := db.nextVersionId + 1,
             lastInsertRowid := row.id }, (row.id, v))

/-- `updateVersionPngPath(versionId, pngPath)`. -/
def updateVersionPngPath (db : DB) (versionId : Nat) (pngPath : String) : DB :=
  let vs := db.versions.map (fun v =>
    if v.id == versionId then { v with pngPath := some pngPath } else v)
  { db with versions := vs }

/-- `deleteVersion(versionId)`: DELETE FROM diagram_versions WHERE id = ?; returns
whether a row was deleted. -/
def deleteVersion (db : DB) (versionId : Nat) : DB × Bool :=
  let changed := db.versions.any (fun v => v.id == versionId)
  ({ db with versions := db.versions.filter (fun v => !(v.id == versionId)) }, changed)

/-- `addSession(diagramId, sessionUrl)` on `diagram_sessions`. -/
def addSession (db : DB) (diagramId : Nat) (sessionUrl : String) : DB :=
  let row : DiagramSession := ⟨db.nextDiagramSessionId, diagramId, sessionUrl⟩
  { db with diagramSessions := db.diagramSessions ++ [row],
            nextDiagramSessionId := db.nextDiagramSessionId + 1,
            lastInsertRowid := row.id }

/-! ## Session-note operations (`notesOps`, `database.js`) -/

/-- `notesOps.getByUrl` (the `session_url` column is UNIQUE, so at most one row matches). -/
def findNoteByUrl (db : DB) (url : String) : Option SessionNote :=
  db.notes.find? (fun n => n.sessionUrl == url)

/-- `isSessionSkipped(sessionUrl)`: a row with this url and skipped = TRUE exists. -/
def isSessionSkipped (db : DB) (url : String) : Bool :=
  db.notes.any (fun n => n.sessionUrl == url && n.skipped)

/-- `isSessionProcessed(sessionUrl)`: a row with this url and skipped = FALSE exists. -/
def isSessionProcessed (db : DB) (url : String) : Bool :=
  db.notes.any (fun n => n.sessionUrl == url && !n.skipped)

/-- `saveSessionNotes(...)`: update in place when a non-skipped row exists, else INSERT.
An INSERT while a skipped row holds the same url violates the UNIQUE constraint and
throws (`Except.error`); the `x || []` defaults of the JS code are the `getD []`. -/
def saveSessionNotes (db : DB) (url : String) (customerId : Option Nat) (callType : String)
    (title summary : Option String) (actionItems : Option (List OwnedItem))
    (components gaps : Option (List String)) (sessionDate : Option String) :
    DB × Except String Nat :=
  match findNoteByUrl db url with
  | some existing =>
    if existing.skipped then
      (db, .error "UNIQUE constraint failed: session_notes.session_url")
    else
      let ns := db.notes.map (fun n =>
        if n.sessionUrl == url then
          { n with customerId := customerId, callType := callType, title := title,
                   summary := summary, actionItems := some (actionItems.getD []),
                   components := some (components.getD []), gaps := some (gaps.getD []),
                   sessionDate := sessionDate }
        else n)
      ({ db with notes := ns }, .ok existing.id)
  | none =>
    let row : SessionNote :=
      ⟨db.nextNoteId, url, customerId, callType, title, summary,
       some (actionItems.getD []), some (components.getD []), some (gaps.getD []),
       false, sessionDate⟩
    ({ db with notes := db.notes ++ [row], nextNoteId := db.nextNoteId + 1,
               lastInsertRowid := row.id }, .ok row.id)

/-- `skipSession(sessionUrl, title)`: `INSERT OR REPLACE INTO session_notes
(session_url, skipped, title) VALUES (?, TRUE, ?)`.  REPLACE deletes any row holding
the url (better-sqlite3 enables foreign keys, so action items referencing the deleted
note are cascade-deleted) and inserts a fresh row whose unnamed columns take their
defaults (`call_type` defaults to `technical`, everything else NULL). -/
def skipSession (db : DB) (url : String) (title : Option String) : DB :=
  let oldId := (findNoteByUrl db url).map (fun n => n.id)
  let remaining := db.notes.filter (fun n => !(n.sessionUrl == url))
  let row : SessionNote :=
    ⟨db.nextNoteId, url, none, "technical", title, none, none, none, none, true, none⟩
  let ais := match oldId with
    | some i => db.actionItems.filter (fun a => !(a.sessionNoteId == some i))
    | none => db.actionItems
  { db with notes := remaining ++ [row], nextNoteId := db.nextNoteId + 1,
            actionItems := ais, lastInsertRowid := row.id }

/-! ## Action-item operations (`actionItemOps`, `database.js`) -/

/-- JS `item.owner || 'Unknown'`. -/
def ownerOrUnknown (owner : Option String) : String :=
  jsStrOr owner "Unknown"

/-- `createActionItem(...)`: INSERT with completed defaulting to FALSE. -/
def createActionItem (db : DB) (sessionNoteId : Option Nat) (customerId : Nat)
    (owner item : String) (sessionDate sessionTitle : Option String) : DB × Nat :=
  let row : ActionItem :=
    ⟨db.nextActionItemId, sessionNoteId, customerId, owner, item, false, none,
     sessionDate, sessionTitle⟩
  ({ db with actionItems := db.actionItems ++ [row],
             nextActionItemId := db.nextActionItemId + 1,
             lastInsertRowid := row.id }, row.id)

/-- `deleteActionItemsBySessionNote(sessionNoteId)`. -/
def deleteActionItemsBySessionNote (db : DB) (sessionNoteId : Nat) : DB :=
  { db with actionItems := db.actionItems.filter (fun a => !(a.sessionNoteId == some sessionNoteId)) }

/-- `saveActionItemsFromSession(...)`: delete the note's existing action items, then
insert the current set; returns the new ids. -/
def saveActionItemsFromSession (db : DB) (sessionNoteId customerId : Nat)
    (actionItems : List OwnedItem) (sessionDate sessionTitle : Option String) :
    DB × List Nat :=
  let db1 := deleteActionItemsBySessionNote db sessionNoteId
  actionItems.foldl (fun acc it =>
    let r := createActionItem acc.1 (some sessionNoteId) customerId
      (ownerOrUnknown it.owner) it.item sessionDate sessionTitle
    (r.1, acc.2 ++ [r.2])) (db1, [])

/-- The set of `action_items` rows of a customer (`actionItemOps.getByCustomerId`
up to its ORDER BY, which only affects presentation order). -/
def actionItemsByCustomer (db : DB) (customerId : Nat) : List ActionItem :=
  db.actionItems.filter (fun a => a.customerId == customerId)

/-- `deleteDiagramKeepActionItems(diagramId)`: looks the diagram up (the INNER JOIN with
customers makes the lookup fail when the owning customer row is gone), flips the
`call_type` of the notes of the diagram's sessions to non-technical, then deletes the
diagram's versions, sessions and the diagram row itself.  No `action_items` statement
is involved. -/
def deleteDiagramKeepActionItems (db : DB) (diagramId : Nat) : DB × Bool :=
  match db.diagrams.find? (fun d => d.id == diagramId) with
  | none => (db, false)
  | some d =>
    if db.customers.any (fun c => c.id == d.customerId) then
      let urls := (db.diagramSessions.filter (fun s => s.diagramId == diagramId)).map
        (fun s => s.sessionUrl)
      let ns := db.notes.map (fun n =>
        if urls.contains n.sessionUrl then { n with callType := "non-technical" } else n)
      let db1 := { db with
        notes := ns,
        versions := db.versions.filter (fun v => !(v.diagramId == diagramId)),
        diagramSessions := db.diagramSessions.filter (fun s => !(s.diagramId == diagramId)),
        diagrams := db.diagrams.filter (fun dg => !(dg.id == diagramId)) }
      (db1, true)
    else (db, false)

/-! ## Queue operations (`queueOps`, `database.js`) -/

/-- `isSessionQueued(sessionUrl)`: a row with this url and status pending/processing exists. -/
def isSessionQueued (db : DB) (url : String) : Bool :=
  db.queue.any (fun j => j.sessionUrl == url &&
    (j.status == JobStatus.pending || j.status == JobStatus.processing))

/-- `queueOps.add` / `addToQueue(sessionUrl, title)`: INSERT a pending row; on a
`session_url` conflict, update the row to pending with the new title and cleared
error/timestamps, but only `WHERE status = 'failed'` (any other status: the upsert
is a silent no-op). -/
def addToQueue (db : DB) (url : String) (title : Option String) : DB :=
  match db.queue.find? (fun j => j.sessionUrl == url) with
  | some j =>
    if j.status == JobStatus.failed then
      let q := db.queue.map (fun x =>
        if x.sessionUrl == url then
          { x with status := JobStatus.pending, title := title, error := none,
                   startedAt := none, completedAt := none }
        else x)
      { db with queue := q }
    else db
  | none =>
    let row : QueueJob := ⟨db.nextQueueId, url, title, JobStatus.pending,
      none, none, none, db.now, none, none⟩
    { db with queue := db.queue ++ [row], nextQueueId := db.nextQueueId + 1,
              now := db.now + 1, lastInsertRowid := row.id }

/-- `getNextPendingJob()`: the pending row with the least `created_at`
(ORDER BY created_at ASC LIMIT 1; ties resolved by list position). -/
def getNextPendingJob (db : DB) : Option QueueJob :=
  (db.queue.filter (fun j => j.status == JobStatus.pending)).foldl (fun acc j =>
    match acc with
    | none => some j
    | some a => if j.createdAt < a.createdAt then some j else some a) none

/-- `markJobProcessing(id)`. -/
def markJobProcessing (db : DB) (id : Nat) : DB :=
  let q := db.queue.map (fun j =>
    if j.id == id then
      { j with status := JobStatus.processing, startedAt := some db.now }
    else j)
  { db with queue := q, now := db.now + 1 }

/-- `markJobCompleted(id, resultSummary, customerId)`. -/
def markJobCompleted (db : DB) (id : Nat) (resultSummary : String)
    (customerId : Option Nat) : DB :=
  let q := db.queue.map (fun j =>
    if j.id == id then
      { j with status := JobStatus.completed, completedAt := some db.now,
               resultSummary := some resultSummary, customerId := customerId }
    else j)
  { db with queue := q, now := db.now + 1 }

/-- `markJobFailed(id, error)`. -/
def markJobFailed (db : DB) (id : Nat) (error : String) : DB :=
  let q := db.queue.map (fun j =>
    if j.id == id then
      { j with status := JobStatus.failed, completedAt := some db.now, error := some error }
    else j)
  { db with queue := q, now := db.now + 1 }

/-- `getPendingCount()`. -/
def getPendingCount (db : DB) : Nat :=
  (db.queue.filter (fun j => j.status == JobStatus.pending)).length

/-- `getProcessingJob()`: SELECT ... WHERE status = processing LIMIT 1. -/
def getProcessingJob (db : DB) : Option QueueJob :=
  db.queue.find? (fun j => j.status == JobStatus.processing)

/-- `getRecentCompleted()`: terminal rows, most recently completed first, LIMIT 20. -/
def getRecentCompleted (db : DB) : List QueueJob :=
  ((db.queue.filter (fun j =>
      j.status == JobStatus.completed || j.status == JobStatus.failed)).insertionSort
    (fun a b => b.completedAt.getD 0 ≤ a.completedAt.getD 0)).take 20

/-- `queueOps.resetStale`: the prepared statement — transitions every processing row to
failed with the fixed interruption message; `.run` reports the number of changed rows. -/
def resetStale (db : DB) : DB × Nat :=
  let n := (db.queue.filter (fun j => j.status == JobStatus.processing)).length
  let q := db.queue.map (fun j =>
    if j.status == JobStatus.processing then
      { j with status := JobStatus.failed,
               error := some "Processing interrupted - app restarted",
               completedAt := some db.now }
    else j)
  ({ db with queue := q, now := db.now + 1 }, n)

/-- `resetStaleQueueJobs()` (`database.js`): runs `resetStale` and logs the change count,
but has no return statement — a JS caller receives `undefined`, modelled as `none`. -/
def resetStaleQueueJobs (db : DB) : DB × Option Nat :=
  let r := resetStale db
  (r.1, none)

/-- `retryQueueJob(id)`: reset a failed row to pending; returns whether a row changed. -/
def retryQueueJob (db : DB) (id : Nat) : DB × Bool :=
  let changed := db.queue.any (fun j => j.id == id && j.status == JobStatus.failed)
  let q := db.queue.map (fun j =>
    if j.id == id && j.status == JobStatus.failed then
      { j with status := JobStatus.pending, error := none, startedAt := none,
               completedAt := none }
    else j)
  ({ db with queue := q }, changed)

/-! ## `addDiagramVersion` (`database.js`, current version) -/

/-- The `{customerId, diagramId, versionId, version}` object returned by `addDiagramVersion`. -/
structure AddVersionResult where
  customerId : Nat
  diagramId : Nat
  versionId : Nat
  version : Nat
deriving Repr, DecidableEq

/-- `addDiagramVersion(customerName, mermaidCode, sessionUrl, notes, isUnknown)`:
for unknown customers a brand-new customer row is ALWAYS created; for known ones the
first `LIKE`-match (ordered by name) is reused, else a new row is created.  Then the
customer's diagram is fetched or created, a new version appended, the session recorded,
and the customer's `updated_at` refreshed (an update with unchanged name/is_unknown). -/
def addDiagramVersion (db : DB) (customerName mermaidCode : String)
    (sessionUrl notes : Option String) (isUnknown : Bool) : DB × AddVersionResult :=
  let c1 : DB × Nat :=
    if isUnknown then
      createCustomer db customerName true
    else
      match (searchCustomers db customerName).head? with
      | some c => (db, c.id)
      | none => createCustomer db customerName false
  let db1 := c1.1
  let customerId := c1.2
  let d1 : DB × Nat :=
    match getDiagramByCustomer db1 customerId with
    | some d => (db1, d.id)
    | none => createDiagram db1 customerId
  let db2 := d1.1
  let diagramId := d1.2
  let v1 := createVersion db2 diagramId mermaidCode notes
  let db3 := v1.1
  let db4 := match sessionUrl with
    | some u => addSession db3 diagramId u
    | none => db3
  let db5 := match getCustomer db4 customerId with
    | some c => updateCustomer db4 customerId c.name c.isUnknown
    | none => db4
  (db5, ⟨customerId, diagramId, v1.2.1, v1.2.2⟩)

/-! ## The queue-status JS object and the worker's poll guard

`getQueueStatus()` builds a plain JS object; the worker's `poll()` then reads the
property `status.processing`.  To keep JS property access faithful (reading a key the
object does not have yields `undefined`), the object is modelled as an association
list of string keys. -/

/-- A JS value as far as the queue-status object is concerned. -/
inductive JSVal where
  | undef
  | jnull
  | num (n : Nat)
  | job (j : QueueJob)
  | jobs (l : List QueueJob)
deriving Repr, DecidableEq

/-- `getQueueStatus()` (`database.js`): the object literal with its four keys. -/
def getQueueStatus (db : DB) : List (String × JSVal) :=
  let processingJob := getProcessingJob db
  [("pending_count", JSVal.num (getPendingCount db)),
   ("processing_count", JSVal.num (if processingJob.isSome then 1 else 0)),
   ("current_job", match processingJob with
     | some j => JSVal.job j
     | none => JSVal.jnull),
   ("recent_completed", JSVal.jobs (getRecentCompleted db))]

/-- JS property read `obj.key`: `undefined` when the key is absent. -/
def jsProp (obj : List (String × JSVal)) (key : String) : JSVal :=
  match obj.find? (fun p => p.1 == key) with
  | some p => p.2
  | none => JSVal.undef

/-- JS truthiness of a `JSVal` (objects and arrays are always truthy). -/
def jsTruthy : JSVal → Bool
  | JSVal.undef => false
  | JSVal.jnull => false
  | JSVal.num n => !(n == 0)
  | JSVal.job _ => true
  | JSVal.jobs _ => true

/-! ## The pipeline orchestrator (`session-processor.js`)

External collaborators are an oracle `Env`: the outcome of each collaborator call in
one pipeline run.  A thrown JS error is `Except.error` with the error message. -/

/-- The analyzer's structured result (after `perplexity.js` fills the defaults
`callType`, `summary`, `actionItems` and normalizes owners). -/
structure Analysis where
  callType : String
  customerName : Option String
  summary : String
  actionItems : List OwnedItem
  components : Option (List String)
  gaps : Option (List String)
  mermaidCode : Option String
deriving Repr, DecidableEq

instance exceptDecEq {ε α : Type} [DecidableEq ε] [DecidableEq α] :
    DecidableEq (Except ε α) := fun x y =>
  match x, y with
  | .ok a, .ok b =>
    if h : a = b then isTrue (by rw [h]) else isFalse (by simp [h])
  | .error a, .error b =>
    if h : a = b then isTrue (by rw [h]) else isFalse (by simp [h])
  | .ok _, .error _ => isFalse (by simp)
  | .error _, .ok _ => isFalse (by simp)

/-- Oracle for one pipeline run's collaborator calls. -/
structure Env where
  waveAuthenticated : Bool
  perplexityConfigured : Bool
  transcript : Except String String
  analysis : Except String Analysis
  validateOk : Bool
  renderResult : Except String String
  cachedSessions : List (String × Option String)
  todayDate : String
deriving Repr, DecidableEq

/-- `validateSession(sessionUrl)`: `some errorText` when invalid. -/
def validateSession (db : DB) (url : String) : Option String :=
  if isSessionProcessed db url then some "Session already processed"
  else if isSessionSkipped db url then some "Session was skipped"
  else none

/-- `validateServices()`: `some errorText` when a collaborator is unready. -/
def validateServices (env : Env) : Option String :=
  if !env.waveAuthenticated then some "Wave not authenticated"
  else if !env.perplexityConfigured then some "Perplexity API not configured"
  else none

/-- `fetchTranscript(sessionUrl)`: throws when the fetch threw or the result is
falsy / shorter than 100 characters. -/
def fetchTranscript (env : Env) : Except String String :=
  match env.transcript with
  | .error e => .error e
  | .ok t =>
    if t.length < 100 then .error "Failed to fetch transcript or transcript too short"
    else .ok t

/-- The `result` object threaded through steps 3-5 of `processSession`
(`{customerId: null, diagramId: null}` initially, possibly extended by
`addDiagramVersion`'s fields and `png_path`). -/
structure DiagResult where
  customerId : Option Nat := none
  diagramId : Option Nat := none
  versionId : Option Nat := none
  version : Option Nat := none
  pngPath : Option String := none
deriving Repr, DecidableEq

/-- `createDiagramIfTechnical(analysis, customerName, isUnknown, sessionUrl)`:
no-op unless the call is technical with a truthy mermaid payload; an invalid payload
is dropped (warning only, `analysis.mermaidCode` nulled — nothing later reads it);
otherwise the version is committed via `addDiagramVersion` and a PNG render is
attempted, a render throw being caught locally (version row keeps png_path NULL). -/
def createDiagramIfTechnical (env : Env) (analysis : Analysis)
    (customerName : String) (isUnknown : Bool) (sessionUrl : String) (db : DB) :
    DB × DiagResult :=
  if !(analysis.callType == "technical") || !(strTruthy analysis.mermaidCode) then
    (db, {})
  else if !env.validateOk then
    (db, {})
  else
    let code := analysis.mermaidCode.getD ""
    let notes := "Extracted from Wave session: " ++ sessionUrl ++
      "\n\nSummary: " ++ analysis.summary
    let a := addDiagramVersion db customerName code (some sessionUrl) (some notes) isUnknown
    let db1 := a.1
    let r := a.2
    match env.renderResult with
    | .ok png =>
      (updateVersionPngPath db1 r.versionId png,
       { customerId := some r.customerId, diagramId := some r.diagramId,
         versionId := some r.versionId, version := some r.version, pngPath := some png })
    | .error _ =>
      (db1,
       { customerId := some r.customerId, diagramId := some r.diagramId,
         versionId := some r.versionId, version := some r.version, pngPath := none })

/-- `ensureCustomer(result, customerName)`: nothing to do when a customer id is already
resolved; otherwise look the name up (substring LIKE) and reuse the first match, or
create a new row flagged unknown exactly when the name is the sentinel. -/
def ensureCustomer (db : DB) (r : DiagResult) (customerName : String) : DB × DiagResult :=
  match r.customerId with
  | some _ => (db, r)
  | none =>
    let name := if customerName == "" then "Unknown Customer" else customerName
    let isUnknown := name == "Unknown Customer"
    match (searchCustomers db name).head? with
    | some c => (db, { r with customerId := some c.id })
    | none =>
      let cr := createCustomer db name isUnknown
      (cr.1, { r with customerId := some cr.2 })

/-- The session date used by `saveSessionData`: the cached Wave session's date if
present and truthy, else today. -/
def sessionDateFor (env : Env) (url : String) : String :=
  match env.cachedSessions.find? (fun s => s.1 == url) with
  | some s => jsStrOr s.2 env.todayDate
  | none => env.todayDate

/-- `saveSessionData(sessionUrl, result, analysis, title)`: upsert the session note,
then — only when a customer id was resolved and the action-item list is non-empty —
replace the note's action items with the current set. -/
def saveSessionData (env : Env) (db : DB) (sessionUrl : String) (r : DiagResult)
    (analysis : Analysis) (title : Option String) : DB × Except String Nat :=
  let sessionDate := sessionDateFor env sessionUrl
  match saveSessionNotes db sessionUrl r.customerId analysis.callType title
      (some analysis.summary) (some analysis.actionItems) analysis.components
      analysis.gaps (some sessionDate) with
  | (db1, .error e) => (db1, .error e)
  | (db1, .ok noteId) =>
    match r.customerId with
    | some cid =>
      if 0 < analysis.actionItems.length then
        ((saveActionItemsFromSession db1 noteId cid analysis.actionItems
            (some sessionDate) title).1, .ok noteId)
      else (db1, .ok noteId)
    | none => (db1, .ok noteId)

/-- The aggregated result returned by `processSession`. -/
structure ProcessResult where
  callType : String
  customerName : String
  customerId : Option Nat
  diagramId : Option Nat
  summary : String
  actionItems : List OwnedItem
  hasDiagram : Bool
deriving Repr, DecidableEq

/-- `processSession({sessionUrl, title})`: the full pipeline.  The returned `DB` is the
state at the return or at the throw point (JS writes persist across a throw; there is
no transaction). -/
def processSession (env : Env) (sessionUrl : String) (title : Option String) (db : DB) :
    DB × Except String ProcessResult :=
  match validateSession db sessionUrl with
  | some e => (db, .error e)
  | none =>
  match validateServices env with
  | some e => (db, .error e)
  | none =>
  match fetchTranscript env with
  | .error e => (db, .error e)
  | .ok _t =>
  match env.analysis with
  | .error e => (db, .error e)
  | .ok analysis =>
    let customerName := jsStrOr analysis.customerName "Unknown Customer"
    let isUnknown := !(strTruthy analysis.customerName)
    let s3 := createDiagramIfTechnical env analysis customerName isUnknown sessionUrl db
    let s4 := ensureCustomer s3.1 s3.2 customerName
    match saveSessionData env s4.1 sessionUrl s4.2 analysis title with
    | (db3, .error e) => (db3, .error e)
    | (db3, .ok _noteId) =>
      (db3, .ok { callType := analysis.callType, customerName := customerName,
                  customerId := s4.2.customerId, diagramId := s4.2.diagramId,
                  summary := analysis.summary, actionItems := analysis.actionItems,
                  hasDiagram := s4.2.diagramId.isSome })

/-! ## The worker (`queue-worker.js`) -/

/-- `processNextJob()`: dequeue the oldest pending job, mark it processing, run the
pipeline, and mark completed/failed.  Returns `none` when no pending job exists,
`some success` otherwise. -/
def processNextJob (env : Env) (db : DB) : DB × Option Bool :=
  match getNextPendingJob db with
  | none => (db, none)
  | some job =>
    let db1 := markJobProcessing db job.id
    match processSession env job.sessionUrl job.title db1 with
    | (db2, .ok r) =>
      let summary := (if r.callType == "technical" then "Technical" else "Non-technical")
        ++ ": " ++ r.customerName
      (markJobCompleted db2 job.id summary r.customerId, some true)
    | (db2, .error e) => (markJobFailed db2 job.id e, some false)

/-- `poll()` (`queue-worker.js`): reads `db.getQueueStatus()` and returns early when
`status.processing` is truthy; otherwise processes the next job.  (`getQueueStatus`
has no `processing` key — the property read is modelled faithfully via `jsProp`.) -/
def poll (env : Env) (db : DB) : DB × Option Bool :=
  if jsTruthy (jsProp (getQueueStatus db) "processing") then (db, none)
  else processNextJob env db

/-! ## The `POST /api/queue` route (`api.js`) -/

/-- Outcome of the `POST /api/queue` handler. -/
inductive EnqueueOutcome where
  | alreadyProcessed
  | skippedSession
  | alreadyQueued
  | notAdded
  | created (job : Option QueueJob)
deriving Repr, DecidableEq

/-- The `POST /api/queue` handler: 409 when the session is processed, skipped or has a
pending/processing queue row; otherwise `addToQueue` runs and the handler answers 201
with the row — unless the upsert inserted nothing and the connection's stale
`lastInsertRowid` is falsy (`notAdded`, a 409). -/
def enqueueRoute (db : DB) (url : String) (title : Option String) :
    DB × EnqueueOutcome :=
  if isSessionProcessed db url then (db, .alreadyProcessed)
  else if isSessionSkipped db url then (db, .skippedSession)
  else if isSessionQueued db url then (db, .alreadyQueued)
  else
    let db1 := addToQueue db url title
    if db1.lastInsertRowid == 0 then (db1, .notAdded)
    else (db1, .created (db1.queue.find? (fun j => j.sessionUrl == url)))

/-! ## Spec-side predicates and proof helpers -/

/-- The version numbers carried by a diagram's `diagram_versions` rows. -/
def versionNums (db : DB) (diagramId : Nat) : List Nat :=
  (db.versions.filter (fun v => v.diagramId == diagramId)).map (fun v => v.version)

/-- The numbers are pairwise distinct values filling exactly `1..count` (the spec's
"contiguous sequence starting at 1 with no gaps and no duplicates"). -/
def contiguousB (l : List Nat) : Bool :=
  decide l.Nodup && l.all (fun k => 1 ≤ k && k ≤ l.length)

/-- The rows inserted by `saveActionItemsFromSession` for ids `id0, id0+1, ...`
(characterizes the effect of its insert loop). -/
def insertedItems (id0 noteId customerId : Nat) (sessionDate sessionTitle : Option String) :
    List OwnedItem → List ActionItem
  | [] => []
  | it :: rest =>
    ⟨id0, some noteId, customerId, ownerOrUnknown it.owner, it.item, false, none,
     sessionDate, sessionTitle⟩ :: insertedItems (id0 + 1) noteId customerId sessionDate sessionTitle rest

/-! ## Concrete states and oracles used to exercise the claims -/

/-- A job currently processing. -/
def exJobProcessing : QueueJob :=
  { id := 1, sessionUrl := "https://wave.example/s1", title := some "Call A",
    status := JobStatus.processing, error := none, resultSummary := none,
    customerId := none, createdAt := 0, startedAt := some 1, completedAt := none }

/-- A job waiting in the queue. -/
def exJobPending : QueueJob :=
  { id := 2, sessionUrl := "https://wave.example/s2", title := some "Call B",
    status := JobStatus.pending, error := none, resultSummary := none,
    customerId := none, createdAt := 1, startedAt := none, completedAt := none }

/-- Queue with one processing and one pending job. -/
def exDBBusy : DB :=
  { customers := [], diagrams := [], versions := [], diagramSessions := [],
    notes := [], actionItems := [], queue := [exJobProcessing, exJobPending],
    nextQueueId := 3, now := 2 }

/-- Oracle with every collaborator unready/failing. -/
def envOff : Env :=
  { waveAuthenticated := false, perplexityConfigured := false,
    transcript := .error "fetch failed", analysis := .error "not called",
    validateOk := false, renderResult := .error "not called",
    cachedSessions := [], todayDate := "2025-01-01" }

/-- Store holding a single previously created unknown customer. -/
def exDBUnknown : DB :=
  { customers := [⟨1, "Unknown Customer", true, 0⟩], diagrams := [], versions := [],
    diagramSessions := [], notes := [], actionItems := [], queue := [],
    nextCustomerId := 2, now := 1 }

/-- Store with one diagram holding versions 1 and 2. -/
def exDBVersions : DB :=
  { customers := [⟨1, "Acme", false, 0⟩], diagrams := [⟨1, 1⟩],
    versions := [⟨1, 1, 1, "flowchart TB", none, none⟩, ⟨2, 1, 2, "flowchart LR", none, none⟩],
    diagramSessions := [], notes := [], actionItems := [], queue := [],
    nextCustomerId := 2, nextDiagramId := 2, nextVersionId := 3 }

/-- A fully processed (non-skipped) session note. -/
def exNote : SessionNote :=
  { id := 1, sessionUrl := "https://wave.example/s0", customerId := some 1,
    callType := "technical", title := some "Call T", summary := some "Summary",
    actionItems := some [⟨some "Stephen", "old item"⟩], components := some [],
    gaps := some [], skipped := false, sessionDate := some "2024-01-01" }

/-- The action item produced by `exNote`'s run. -/
def exItem : ActionItem :=
  { id := 1, sessionNoteId := some 1, customerId := 1, owner := "Stephen",
    item := "old item", completed := false, completedAt := none,
    sessionDate := some "2024-01-01", sessionTitle := some "Call T" }

/-- Store where `exNote` was processed for customer 1, leaving `exItem`. -/
def exDBProcessed : DB :=
  { customers := [⟨1, "Acme", false, 0⟩], diagrams := [], versions := [],
    diagramSessions := [], notes := [exNote], actionItems := [exItem], queue := [],
    nextCustomerId := 2, nextNoteId := 2, nextActionItemId := 2 }

/-- A failed queue row. -/
def exJobFailed : QueueJob :=
  { id := 7, sessionUrl := "https://wave.example/s7", title := some "old title",
    status := JobStatus.failed, error := some "boom", resultSummary := none,
    customerId := none, createdAt := 0, startedAt := some 1, completedAt := some 2 }

/-- Queue holding only `exJobFailed`. -/
def exDBFailed : DB :=
  { customers := [], diagrams := [], versions := [], diagramSessions := [],
    notes := [], actionItems := [], queue := [exJobFailed], nextQueueId := 8, now := 3 }

/-- An analyzer result for a technical call whose diagram payload will fail validation,
with no extractable customer name. -/
def exAnalysisTech : Analysis :=
  { callType := "technical", customerName := none, summary := "Sum",
    actionItems := [⟨some "Stephen", "do the thing"⟩], components := some ["Firewall"],
    gaps := some [], mermaidCode := some "flowchart TB\n  A --> B" }

/-- Analyzer result with an empty action-item list (reprocessing scenario). -/
def exAnalysisEmpty : Analysis :=
  { callType := "technical", customerName := some "Acme", summary := "Sum2",
    actionItems := [], components := none, gaps := none, mermaidCode := none }

/-- Oracle for a healthy run whose Mermaid payload fails validation. -/
def envInvalidDiagram : Env :=
  { waveAuthenticated := true, perplexityConfigured := true,
    transcript := .ok (String.mk (List.replicate 100 'x')),
    analysis := .ok exAnalysisTech, validateOk := false,
    renderResult := .error "render not reached",
    cachedSessions := [("https://wave.example/s9", some "2024-05-05")],
    todayDate := "2025-01-01" }

/-- Oracle for a healthy run with a valid payload whose PNG render throws. -/
def envRenderFails : Env :=
  { envInvalidDiagram with
    validateOk := true,
    renderResult := .error "Failed to render diagram: boom" }

/-- Empty store. -/
def exDBEmpty : DB :=
  { customers := [], diagrams := [], versions := [], diagramSessions := [],
    notes := [], actionItems := [], queue := [] }

/-! ## General lemmas -/

theorem aux_find?_append_none {α} (p : α → Bool) {l₁ : List α} (l₂ : List α)
    (h : l₁.find? p = none) : (l₁ ++ l₂).find? p = l₂.find? p := by
  induction l₁ with
  | nil => rfl
  | cons x t ih =>
    cases hx : p x with
    | true =>
      rw [List.find?_cons_of_pos _ hx] at h
      exact absurd h (by simp)
    | false =>
      have hx' : ¬ p x = true := by simp [hx]
      rw [List.find?_cons_of_neg _ hx'] at h
      rw [List.cons_append, List.find?_cons_of_neg _ hx']
      exact ih h

theorem aux_find?_of_filter_singleton {α} (p : α → Bool) {l : List α} {j : α}
    (h : l.filter p = [j]) : l.find? p = some j := by
  induction l with
  | nil => simp at h
  | cons x t ih =>
    cases hx : p x with
    | true =>
      rw [List.filter_cons_of_pos hx] at h
      rw [List.find?_cons_of_pos _ hx]
      exact congrArg some (List.cons.injEq .. |>.mp h).1
    | false =>
      have hx' : ¬ p x = true := by simp [hx]
      rw [List.filter_cons_of_neg hx'] at h
      rw [List.find?_cons_of_neg _ hx']
      exact ih h

theorem aux_find?_of_filter_nil {α} (p : α → Bool) {l : List α}
    (h : l.filter p = []) : l.find? p = none := by
  induction l with
  | nil => rfl
  | cons x t ih =>
    cases hx : p x with
    | true =>
      rw [List.filter_cons_of_pos hx] at h
      exact absurd h (by simp)
    | false =>
      have hx' : ¬ p x = true := by simp [hx]
      rw [List.filter_cons_of_neg hx'] at h
      rw [List.find?_cons_of_neg _ hx']
      exact ih h

theorem aux_any_filter {α} (p q : α → Bool) (l : List α) :
    l.any (fun x => p x && q x) = (l.filter p).any q := by
  induction l with
  | nil => rfl
  | cons x t ih =>
    cases hx : p x with
    | true =>
      rw [List.filter_cons_of_pos hx]
      simp only [List.any_cons, hx, Bool.true_and, ih]
    | false =>
      rw [List.filter_cons_of_neg (by simp [hx])]
      simp only [List.any_cons, hx, Bool.false_and, Bool.false_or, ih]

/-! ## Claim C9: diagram deletion never touches action items -/

/-- C9: for every store state and diagram, `deleteDiagramKeepActionItems` leaves the
`action_items` table exactly as it was, so every action item whose customer id equals
the diagram's owning customer id (indeed, every customer's action items) is unchanged
and still retrievable by customer id. -/
theorem deleteDiagram_keeps_action_items (db : DB) (diagramId : Nat) :
    (deleteDiagramKeepActionItems db diagramId).1.actionItems = db.actionItems ∧
    ∀ customerId,
      actionItemsByCustomer (deleteDiagramKeepActionItems db diagramId).1 customerId =
        actionItemsByCustomer db customerId := by
  have h1 : (deleteDiagramKeepActionItems db diagramId).1.actionItems = db.actionItems := by
    unfold deleteDiagramKeepActionItems
    split
    · rfl
    · split
      · rfl
      · rfl
  refine ⟨h1, fun cid => ?_⟩
  unfold actionItemsByCustomer
  rw [h1]

/-! ## Claim C1: the poll guard reads a property `getQueueStatus` does not provide -/

/-- C1 (code bug): with job 1 processing and job 2 pending, the queue status does
report a processing job (`current_job` / `processing_count`), yet the guard of `poll` reads
the absent key `processing`, gets `undefined` (falsy), and the poll cycle is NOT a
no-op: it dequeues the pending job — `markJobProcessing` puts the store in a state
with TWO processing rows while job 1 is still in flight — and (the orchestrator
failing fast here) leaves the status of job 2 changed to failed. -/
theorem poll_guard_reads_absent_property :
    getProcessingJob exDBBusy = some exJobProcessing ∧
    jsProp (getQueueStatus exDBBusy) "processing" = JSVal.undef ∧
    jsTruthy (jsProp (getQueueStatus exDBBusy) "processing") = false ∧
    poll envOff exDBBusy ≠ (exDBBusy, none) ∧
    ((poll envOff exDBBusy).1.queue.map (fun j => (j.id, j.status))) =
      [(1, JobStatus.processing), (2, JobStatus.failed)] ∧
    ((markJobProcessing exDBBusy exJobPending.id).queue.filter
      (fun j => j.status == JobStatus.processing)).length = 2 := by
  refine ⟨rfl, rfl, rfl, ?_, by rfl, rfl⟩
  decide

/-! ## Claim C8: resetStaleQueueJobs transitions rows but returns nothing -/

/-- C8 (code bug): `resetStaleQueueJobs` transitions every row still marked processing
to failed with the fixed interruption message and leaves every other row unchanged —
but the JS function has no return statement, so its caller receives `undefined`
(`none`), not the transition count: the `staleCount > 0` check in `queue-worker.start()` can
never fire.  The underlying statement does count 1 transition on the concrete input. -/
theorem resetStale_transitions_every_processing_row (db : DB) :
    (∀ j ∈ db.queue, j.status = JobStatus.processing →
      ({ j with
         status := JobStatus.failed,
         error := some "Processing interrupted - app restarted",
         completedAt := some db.now } : QueueJob) ∈ (resetStaleQueueJobs db).1.queue) ∧
    (∀ j ∈ db.queue, j.status ≠ JobStatus.processing → j ∈ (resetStaleQueueJobs db).1.queue) ∧
    (resetStaleQueueJobs db).1.queue.length = db.queue.length ∧
    (resetStaleQueueJobs db).2 = none ∧
    ((resetStale exDBBusy).2 = 1 ∧ (resetStaleQueueJobs exDBBusy).2 = none) := by
  refine ⟨?_, ?_, ?_, rfl, rfl, rfl⟩
  · intro j hj hst
    have heq : ({ j with
        status := JobStatus.failed,
        error := some "Processing interrupted - app restarted",
        completedAt := some db.now } : QueueJob) =
        (fun x => if x.status == JobStatus.processing then
          ({ x with
             status := JobStatus.failed,
             error := some "Processing interrupted - app restarted",
             completedAt := some db.now } : QueueJob) else x) j := by
      simp [hst]
    rw [heq]
    exact List.mem_map_of_mem _ hj
  · intro j hj hst
    have hb : (j.status == JobStatus.processing) = false := by
      simp only [beq_eq_false_iff_ne, ne_eq]
      exact hst
    have heq : j =
        (fun x => if x.status == JobStatus.processing then
          ({ x with
             status := JobStatus.failed,
             error := some "Processing interrupted - app restarted",
             completedAt := some db.now } : QueueJob) else x) j := by
      simp [hb]
    rw [heq]
    exact List.mem_map_of_mem _ hj
  · simp [resetStaleQueueJobs, resetStale]

/-! ## Claim C2: resolution of customers for unresolved transcripts -/

theorem aux_map_if_id {N : Nat} (g : Customer → Customer) :
    ∀ {l : List Customer}, (∀ c ∈ l, c.id < N) →
    l.map (fun c => if c.id == N then g c else c) = l := by
  intro l h
  induction l with
  | nil => rfl
  | cons x t ih =>
    have hx : (x.id == N) = false := by
      simp only [beq_eq_false_iff_ne, ne_eq]
      exact Nat.ne_of_lt (h x (by simp))
    simp only [List.map_cons, hx, Bool.false_eq_true, if_false]
    rw [ih (fun c hc => h c (by simp [hc]))]

theorem aux_update_fresh (db' : DB) (dbcs : List Customer) (N t : Nat) (nm : String)
    (unk : Bool) (hcs : db'.customers = dbcs ++ [⟨N, nm, unk, t⟩])
    (hlt : ∀ c ∈ dbcs, c.id < N) :
    (match getCustomer db' N with
     | some c => updateCustomer db' N c.name c.isUnknown
     | none => db').customers = dbcs ++ [⟨N, nm, unk, db'.now⟩] := by
  have hfind : getCustomer db' N = some ⟨N, nm, unk, t⟩ := by
    unfold getCustomer
    rw [hcs, aux_find?_append_none _ _ ?hnone]
    case hnone =>
      rw [List.find?_eq_none]
      intro c hc
      simp [Nat.ne_of_lt (hlt c hc)]
    simp [List.find?]
  rw [hfind]
  unfold updateCustomer
  simp only
  rw [hcs, List.map_append, aux_map_if_id _ hlt]
  simp

/-- `addDiagramVersion` with the unknown flag always inserts a brand-new customer row
(never reusing an existing one), provided row ids are below the id counter. -/
theorem addDV_unknown_spec (db : DB) (name code : String) (su nts : Option String)
    (hWF : ∀ c ∈ db.customers, c.id < db.nextCustomerId) :
    (addDiagramVersion db name code su nts true).2.customerId = db.nextCustomerId ∧
    (addDiagramVersion db name code su nts true).1.customers =
      db.customers ++ [⟨db.nextCustomerId, name, true, db.now + 1⟩] := by
  constructor
  · rfl
  · cases su with
    | none =>
      cases hgd : getDiagramByCustomer (createCustomer db name true).1
          (createCustomer db name true).2 with
      | none =>
        unfold addDiagramVersion
        simp only [if_true]
        rw [hgd]
        exact aux_update_fresh _ db.customers db.nextCustomerId db.now name true rfl hWF
      | some d =>
        unfold addDiagramVersion
        simp only [if_true]
        rw [hgd]
        exact aux_update_fresh _ db.customers db.nextCustomerId db.now name true rfl hWF
    | some u =>
      cases hgd : getDiagramByCustomer (createCustomer db name true).1
          (createCustomer db name true).2 with
      | none =>
        unfold addDiagramVersion
        simp only [if_true]
        rw [hgd]
        exact aux_update_fresh _ db.customers db.nextCustomerId db.now name true rfl hWF
      | some d =>
        unfold addDiagramVersion
        simp only [if_true]
        rw [hgd]
        exact aux_update_fresh _ db.customers db.nextCustomerId db.now name true rfl hWF

/-- Whenever some existing customer row matches the (LIKE) lookup of the resolved name,
`ensureCustomer` reuses an existing row: the store is left unchanged and the returned
customer id is the id of a row already present. -/
theorem ensureCustomer_reuses_match (db : DB) (r : DiagResult) (nm : String)
    (hr : r.customerId = none)
    (hex : ∃ c ∈ db.customers,
      likeContains c.name (if nm == "" then "Unknown Customer" else nm) = true) :
    (ensureCustomer db r nm).1 = db ∧
    ∃ c ∈ db.customers, (ensureCustomer db r nm).2.customerId = some c.id := by
  obtain ⟨c0, hc0, hlike⟩ := hex
  have hmemf : c0 ∈ db.customers.filter
      (fun c => likeContains c.name (if nm == "" then "Unknown Customer" else nm)) :=
    List.mem_filter.mpr ⟨hc0, hlike⟩
  have hperm := List.perm_insertionSort (fun a b => strLeB a.name b.name = true)
    (db.customers.filter
      (fun c => likeContains c.name (if nm == "" then "Unknown Customer" else nm)))
  have hmems : c0 ∈ searchCustomers db (if nm == "" then "Unknown Customer" else nm) := by
    unfold searchCustomers
    exact hperm.mem_iff.mpr hmemf
  cases hh : (searchCustomers db (if nm == "" then "Unknown Customer" else nm)).head? with
  | none =>
    rw [List.head?_eq_none_iff] at hh
    rw [hh] at hmems
    exact absurd hmems (List.not_mem_nil c0)
  | some c1 =>
    have hc1 : c1 ∈ db.customers := by
      have h1 : c1 ∈ searchCustomers db (if nm == "" then "Unknown Customer" else nm) :=
        List.mem_of_mem_head? (Option.mem_def.mpr hh)
      unfold searchCustomers at h1
      exact (List.mem_filter.mp (hperm.mem_iff.mp h1)).1
    unfold ensureCustomer
    rw [hr]
    simp only
    rw [hh]
    exact ⟨rfl, c1, hc1, rfl⟩

/-- C8 witness: applying the theorem at the concrete two-job store. -/
theorem resetStale_transitions_witness :
    ({ exJobProcessing with
       status := JobStatus.failed,
       error := some "Processing interrupted - app restarted",
       completedAt := some exDBBusy.now } : QueueJob) ∈
        (resetStaleQueueJobs exDBBusy).1.queue ∧
    exJobPending ∈ (resetStaleQueueJobs exDBBusy).1.queue := by
  have h := resetStale_transitions_every_processing_row exDBBusy
  exact ⟨h.1 exJobProcessing (by decide) (by decide),
         h.2.1 exJobPending (by decide) (by decide)⟩

/-- C2 counterexample: the store holds exactly one customer row, an unknown one named
by the sentinel; resolving a transcript with no extracted customer name on the
diagram-less path reuses that existing unknown row (the store is unchanged, no new
Customer row is created), contradicting "never matches or reuses any existing unknown
Customer row". -/
theorem unknown_customer_reused_on_diagramless_path :
    exDBUnknown.customers = [⟨1, "Unknown Customer", true, 0⟩] ∧
    ensureCustomer exDBUnknown {} "Unknown Customer" =
      (exDBUnknown, { customerId := some 1 }) := by
  constructor
  · rfl
  · decide

/-- C2 amended: on the diagram path, `addDiagramVersion` with the unknown flag always
creates a brand-new `is_unknown` Customer row and never reuses an existing one; on the
diagram-less path, `ensureCustomer` reuses the first existing row whose name matches
the resolved name (unknown rows included — they are named by the sentinel and a later
sentinel lookup matches them), leaving the store unchanged. -/
theorem unknown_customer_resolution_amended (db : DB) (name code : String)
    (su nts : Option String) (r : DiagResult) (nm : String)
    (hWF : ∀ c ∈ db.customers, c.id < db.nextCustomerId)
    (hr : r.customerId = none) :
    ((addDiagramVersion db name code su nts true).2.customerId = db.nextCustomerId ∧
     (addDiagramVersion db name code su nts true).1.customers =
       db.customers ++ [⟨db.nextCustomerId, name, true, db.now + 1⟩]) ∧
    ((∃ c ∈ db.customers,
        likeContains c.name (if nm == "" then "Unknown Customer" else nm) = true) →
      (ensureCustomer db r nm).1 = db ∧
      ∃ c ∈ db.customers, (ensureCustomer db r nm).2.customerId = some c.id) :=
  ⟨addDV_unknown_spec db name code su nts hWF,
   fun hex => ensureCustomer_reuses_match db r nm hr hex⟩

/-- C2 amended, witness: at the concrete one-unknown-customer store, the diagram path
creates customer 2 (a second unknown row) while the diagram-less path reuses row 1. -/
theorem unknown_customer_resolution_amended_witness :
    (addDiagramVersion exDBUnknown "Unknown Customer" "flowchart TB" none none true).2.customerId = 2 ∧
    (addDiagramVersion exDBUnknown "Unknown Customer" "flowchart TB" none none true).1.customers =
      exDBUnknown.customers ++ [⟨2, "Unknown Customer", true, 2⟩] ∧
    (ensureCustomer exDBUnknown {} "Unknown Customer").1 = exDBUnknown := by
  have h := unknown_customer_resolution_amended exDBUnknown "Unknown Customer"
    "flowchart TB" none none {} "Unknown Customer" (by decide) rfl
  refine ⟨h.1.1, h.1.2, ?_⟩
  exact (h.2 ⟨⟨1, "Unknown Customer", true, 0⟩, by decide, by decide⟩).1

/-! ## Claim C4: version numbers 1..count -/

theorem aux_init_le_foldl_max (l : List Nat) : ∀ {a : Nat}, a ≤ l.foldl Nat.max a := by
  induction l with
  | nil => intro a; exact Nat.le_refl a
  | cons x t ih =>
    intro a
    rw [List.foldl_cons]
    exact Nat.le_trans (Nat.le_max_left a x) ih

theorem aux_foldl_max_le (l : List Nat) : ∀ {a b : Nat}, a ≤ b → (∀ x ∈ l, x ≤ b) →
    l.foldl Nat.max a ≤ b := by
  induction l with
  | nil => intro a b ha _; simpa using ha
  | cons x t ih =>
    intro a b ha hall
    rw [List.foldl_cons]
    exact ih (Nat.max_le.mpr ⟨ha, hall x (by simp)⟩) (fun y hy => hall y (by simp [hy]))

theorem aux_le_foldl_max (l : List Nat) : ∀ {a x : Nat}, x ∈ l → x ≤ l.foldl Nat.max a := by
  induction l with
  | nil => intro a x hx; simp at hx
  | cons y t ih =>
    intro a x hx
    rw [List.foldl_cons]
    rcases List.mem_cons.mp hx with h | h
    · subst h
      exact Nat.le_trans (Nat.le_max_right a x) (aux_init_le_foldl_max t)
    · exact ih h

theorem aux_contiguousB_iff {l : List Nat} :
    contiguousB l = true ↔ l.Nodup ∧ ∀ k ∈ l, 1 ≤ k ∧ k ≤ l.length := by
  unfold contiguousB
  rw [Bool.and_eq_true, decide_eq_true_eq, List.all_eq_true]
  constructor
  · rintro ⟨hnd, hall⟩
    refine ⟨hnd, fun k hk => ?_⟩
    have := hall k hk
    rw [Bool.and_eq_true, decide_eq_true_eq, decide_eq_true_eq] at this
    exact this
  · rintro ⟨hnd, hall⟩
    refine ⟨hnd, fun k hk => ?_⟩
    rw [Bool.and_eq_true, decide_eq_true_eq, decide_eq_true_eq]
    exact hall k hk

theorem aux_contiguous_mem {l : List Nat} (h : contiguousB l = true) :
    ∀ k, 1 ≤ k → k ≤ l.length → k ∈ l := by
  obtain ⟨hnd, hall⟩ := aux_contiguousB_iff.mp h
  intro k hk1 hk2
  have hsub : l.toFinset ⊆ Finset.Icc 1 l.length := by
    intro x hx
    rw [List.mem_toFinset] at hx
    exact Finset.mem_Icc.mpr (hall x hx)
  have hcard : (Finset.Icc 1 l.length).card ≤ l.toFinset.card := by
    rw [List.toFinset_card_of_nodup hnd, Nat.card_Icc]
    simp
  have heq := Finset.eq_of_subset_of_card_le hsub hcard
  have hk : k ∈ l.toFinset := by
    rw [heq]
    exact Finset.mem_Icc.mpr ⟨hk1, hk2⟩
  exact List.mem_toFinset.mp hk

theorem aux_contiguous_max {l : List Nat} (h : contiguousB l = true) :
    l.foldl Nat.max 0 = l.length := by
  obtain ⟨hnd, hall⟩ := aux_contiguousB_iff.mp h
  rcases Nat.eq_zero_or_pos l.length with hl | hl
  · have : l = [] := List.length_eq_zero.mp hl
    subst this
    rfl
  · apply Nat.le_antisymm
    · exact aux_foldl_max_le l (Nat.zero_le _) (fun x hx => (hall x hx).2)
    · exact aux_le_foldl_max l (aux_contiguous_mem h l.length hl (Nat.le_refl _))

theorem aux_contiguous_append_next {l : List Nat} (h : contiguousB l = true) :
    contiguousB (l ++ [l.foldl Nat.max 0 + 1]) = true := by
  obtain ⟨hnd, hall⟩ := aux_contiguousB_iff.mp h
  rw [aux_contiguous_max h]
  apply aux_contiguousB_iff.mpr
  constructor
  · rw [List.nodup_append]
    refine ⟨hnd, List.nodup_singleton _, ?_⟩
    intro x hx hy
    rw [List.mem_singleton] at hy
    subst hy
    have := (hall _ hx).2
    omega
  · intro k hk
    rw [List.mem_append, List.mem_singleton] at hk
    rw [List.length_append, List.length_singleton]
    rcases hk with hk | hk
    · have := hall k hk
      omega
    · omega

theorem aux_versionNums_createVersion (db : DB) (did d : Nat) (code : String)
    (nts : Option String) :
    versionNums (createVersion db did code nts).1 d =
      if (did == d) = true then versionNums db d ++ [nextVersionNumber db did]
      else versionNums db d := by
  unfold versionNums createVersion
  simp only
  rw [List.filter_append, List.map_append]
  cases hd : (did == d) with
  | true => simp [hd]
  | false => simp [hd]

/-- C4 counterexample: a store satisfying the invariant (diagram 1 has versions 1, 2)
on which the store operation `deleteVersion` removes the version-1 row, leaving version
numbers `[2]` — not the contiguous sequence `1..count`: the invariant is NOT preserved
by every store operation. -/
theorem deleteVersion_breaks_contiguity :
    contiguousB (versionNums exDBVersions 1) = true ∧
    (deleteVersion exDBVersions 1).2 = true ∧
    versionNums (deleteVersion exDBVersions 1).1 1 = [2] ∧
    contiguousB (versionNums (deleteVersion exDBVersions 1).1 1) = false := by
  decide

/-- C4 amended: version numbers are assigned as max(version)+1 (defaulting to 1), so
`createVersion` — the only statement that inserts version rows — preserves the
invariant: under it the new number is count+1, the edited diagram keeps a contiguous
`1..count` set and every other diagram is untouched.  `deleteVersion`, however, may
remove a non-maximal version and break the invariant (see the counterexample). -/
theorem createVersion_preserves_contiguity (db : DB) (did : Nat) (code : String)
    (nts : Option String) (h : contiguousB (versionNums db did) = true) :
    (createVersion db did code nts).2.2 = (versionNums db did).length + 1 ∧
    contiguousB (versionNums (createVersion db did code nts).1 did) = true ∧
    ∀ d, ¬(d = did) → versionNums (createVersion db did code nts).1 d = versionNums db d := by
  have hnext : nextVersionNumber db did = (versionNums db did).foldl Nat.max 0 + 1 := rfl
  refine ⟨?_, ?_, ?_⟩
  · show nextVersionNumber db did = (versionNums db did).length + 1
    rw [hnext, aux_contiguous_max h]
  · rw [aux_versionNums_createVersion]
    simp only [beq_self_eq_true, if_true]
    rw [hnext]
    exact aux_contiguous_append_next h
  · intro d hd
    rw [aux_versionNums_createVersion]
    have : (did == d) = false := by
      simp only [beq_eq_false_iff_ne, ne_eq]
      exact fun hdd => hd hdd.symm
    simp [this]

/-- C4 amended, witness: appending to diagram 1 of the concrete two-version store
assigns version 3 and keeps `1..3`; diagram 2 (no versions) is untouched. -/
theorem createVersion_preserves_contiguity_witness :
    (createVersion exDBVersions 1 "flowchart RL" none).2.2 = 3 ∧
    contiguousB (versionNums (createVersion exDBVersions 1 "flowchart RL" none).1 1) = true ∧
    versionNums (createVersion exDBVersions 1 "flowchart RL" none).1 2 = versionNums exDBVersions 2 := by
  have h := createVersion_preserves_contiguity exDBVersions 1 "flowchart RL" none (by decide)
  refine ⟨?_, h.2.1, h.2.2 2 (by decide)⟩
  have h1 := h.1
  simpa using h1

/-! ## Claim C10: skipping replaces the whole note row -/

theorem aux_find?_filter_not {α} (p : α → Bool) (l : List α) :
    (l.filter (fun x => !(p x))).find? p = none := by
  rw [List.find?_eq_none]
  intro a ha
  have h2 := (List.mem_filter.mp ha).2
  rw [Bool.not_eq_true' ] at h2
  simp [h2]

theorem aux_filter_filter_not {α} (p : α → Bool) (l : List α) :
    (l.filter (fun x => !(p x))).filter p = [] := by
  rw [List.filter_eq_nil_iff]
  intro a ha
  have h2 := (List.mem_filter.mp ha).2
  rw [Bool.not_eq_true'] at h2
  simp [h2]

/-- C10: `skipSession` is an INSERT OR REPLACE keyed on the unique session url: even
when a fully processed, non-skipped note exists for the url, afterwards the only note
row for that url is a fresh row carrying skipped = TRUE and the given title, with the
customer link, summary, action-item/component/gap payloads and session date all NULL
(erased, not preserved), and `call_type` back at its column default. -/
theorem skipSession_replaces_note_row (db : DB) (url : String) (title : Option String)
    (n : SessionNote) (_hn : findNoteByUrl db url = some n) (_hns : n.skipped = false) :
    (skipSession db url title).notes.filter (fun x => x.sessionUrl == url) =
      [⟨db.nextNoteId, url, none, "technical", title, none, none, none, none, true, none⟩] ∧
    findNoteByUrl (skipSession db url title) url =
      some ⟨db.nextNoteId, url, none, "technical", title, none, none, none, none, true, none⟩ := by
  constructor
  · show ((db.notes.filter (fun x => !(x.sessionUrl == url))) ++
        ([⟨db.nextNoteId, url, none, "technical", title, none, none, none, none, true, none⟩] :
          List SessionNote)).filter (fun x => x.sessionUrl == url) = _
    rw [List.filter_append, aux_filter_filter_not]
    simp [List.filter]
  · show ((db.notes.filter (fun x => !(x.sessionUrl == url))) ++
        ([⟨db.nextNoteId, url, none, "technical", title, none, none, none, none, true, none⟩] :
          List SessionNote)).find? (fun x => x.sessionUrl == url) = _
    rw [aux_find?_append_none _ _ (aux_find?_filter_not _ _)]
    simp [List.find?]

/-- C10 witness: at the concrete processed store, skipping erases the stored data. -/
theorem skipSession_replaces_note_row_witness :
    (skipSession exDBProcessed "https://wave.example/s0" (some "skipped title")).notes.filter
        (fun x => x.sessionUrl == "https://wave.example/s0") =
      [⟨2, "https://wave.example/s0", none, "technical", some "skipped title",
        none, none, none, none, true, none⟩] ∧
    exNote.summary = some "Summary" := by
  have h := skipSession_replaces_note_row exDBProcessed "https://wave.example/s0"
    (some "skipped title") exNote (by decide) rfl
  exact ⟨h.1, rfl⟩

/-! ## Claim C5: enqueue semantics -/

/-- C5: for a source id that is neither processed nor skipped: (1) while its queue row
is pending or processing, enqueuing is rejected AlreadyQueued (409) and changes
nothing; (2) while its row is failed, that same row (same job id) is reset to pending
with the title updated and error/timestamps cleared, every other row is untouched and
no row is inserted; (3) with no row present a fresh pending row is inserted; (4) a
completed row is left entirely unchanged — so the failed-reset is the only path that
reuses an existing row instead of inserting a new one. -/
theorem enqueue_semantics (db : DB) (url : String) (title : Option String)
    (hp : isSessionProcessed db url = false)
    (hs : isSessionSkipped db url = false) :
    (∀ j, db.queue.filter (fun x => x.sessionUrl == url) = [j] →
      (j.status = JobStatus.pending ∨ j.status = JobStatus.processing) →
      enqueueRoute db url title = (db, EnqueueOutcome.alreadyQueued)) ∧
    (∀ j, db.queue.filter (fun x => x.sessionUrl == url) = [j] →
      j.status = JobStatus.failed →
      ({ j with
         status := JobStatus.pending, title := title, error := none,
         startedAt := none, completedAt := none } : QueueJob) ∈
          (enqueueRoute db url title).1.queue ∧
      (∀ x ∈ db.queue, (x.sessionUrl == url) = false → x ∈ (enqueueRoute db url title).1.queue) ∧
      (enqueueRoute db url title).1.queue.length = db.queue.length) ∧
    (db.queue.filter (fun x => x.sessionUrl == url) = [] →
      (enqueueRoute db url title).1.queue = db.queue ++
        [⟨db.nextQueueId, url, title, JobStatus.pending, none, none, none, db.now, none, none⟩]) ∧
    (∀ j, db.queue.filter (fun x => x.sessionUrl == url) = [j] →
      j.status = JobStatus.completed →
      (enqueueRoute db url title).1 = db) := by
  have hqEq : isSessionQueued db url =
      (db.queue.filter (fun x => x.sessionUrl == url)).any
        (fun j => j.status == JobStatus.pending || j.status == JobStatus.processing) :=
    aux_any_filter (fun x : QueueJob => x.sessionUrl == url)
      (fun j : QueueJob => j.status == JobStatus.pending || j.status == JobStatus.processing)
      db.queue
  refine ⟨?_, ?_, ?_, ?_⟩
  · intro j hf hst
    have hq : isSessionQueued db url = true := by
      rw [hqEq, hf]
      rcases hst with h | h <;> simp [List.any, h]
    unfold enqueueRoute
    rw [hp, hs, hq]
    simp
  · intro j hf hst
    have hq : isSessionQueued db url = false := by
      rw [hqEq, hf]
      simp [List.any, hst]
    have hfind : db.queue.find? (fun x => x.sessionUrl == url) = some j :=
      aux_find?_of_filter_singleton _ hf
    have hjmem : j ∈ db.queue ∧ (j.sessionUrl == url) = true := by
      have : j ∈ db.queue.filter (fun x => x.sessionUrl == url) := by
        rw [hf]; exact List.mem_singleton.mpr rfl
      exact ⟨(List.mem_filter.mp this).1, (List.mem_filter.mp this).2⟩
    have hq1 : (enqueueRoute db url title).1 = addToQueue db url title := by
      unfold enqueueRoute
      rw [hp, hs, hq]
      simp only [Bool.false_eq_true, if_false]
      by_cases hl : ((addToQueue db url title).lastInsertRowid == 0) = true
      · simp [hl]
      · simp only [Bool.not_eq_true] at hl
        simp [hl]
    have hadd : (addToQueue db url title).queue = db.queue.map (fun x =>
        if x.sessionUrl == url then
          { x with
            status := JobStatus.pending, title := title, error := none,
            startedAt := none, completedAt := none }
        else x) := by
      unfold addToQueue
      rw [hfind]
      simp only [hst, beq_self_eq_true, if_true]
    rw [hq1, hadd]
    refine ⟨?_, ?_, by rw [List.length_map]⟩
    · have heq : ({ j with
          status := JobStatus.pending, title := title, error := none,
          startedAt := none, completedAt := none } : QueueJob) =
          (fun x => if x.sessionUrl == url then
            ({ x with
               status := JobStatus.pending, title := title, error := none,
               startedAt := none, completedAt := none } : QueueJob) else x) j := by
        simp [hjmem.2]
      rw [heq]
      exact List.mem_map_of_mem _ hjmem.1
    · intro x hx hxu
      have heq : x = (fun y => if y.sessionUrl == url then
            ({ y with
               status := JobStatus.pending, title := title, error := none,
               startedAt := none, completedAt := none } : QueueJob) else y) x := by
        simp [hxu]
      rw [heq]
      exact List.mem_map_of_mem _ hx
  · intro hf
    have hq : isSessionQueued db url = false := by
      rw [hqEq, hf]
      rfl
    have hfind : db.queue.find? (fun x => x.sessionUrl == url) = none :=
      aux_find?_of_filter_nil _ hf
    have hq1 : (enqueueRoute db url title).1 = addToQueue db url title := by
      unfold enqueueRoute
      rw [hp, hs, hq]
      simp only [Bool.false_eq_true, if_false]
      by_cases hl : ((addToQueue db url title).lastInsertRowid == 0) = true
      · simp [hl]
      · simp only [Bool.not_eq_true] at hl
        simp [hl]
    rw [hq1]
    unfold addToQueue
    rw [hfind]
  · intro j hf hst
    have hq : isSessionQueued db url = false := by
      rw [hqEq, hf]
      simp [List.any, hst]
    have hfind : db.queue.find? (fun x => x.sessionUrl == url) = some j :=
      aux_find?_of_filter_singleton _ hf
    have hq1 : (enqueueRoute db url title).1 = addToQueue db url title := by
      unfold enqueueRoute
      rw [hp, hs, hq]
      simp only [Bool.false_eq_true, if_false]
      by_cases hl : ((addToQueue db url title).lastInsertRowid == 0) = true
      · simp [hl]
      · simp only [Bool.not_eq_true] at hl
        simp [hl]
    rw [hq1]
    unfold addToQueue
    rw [hfind]
    simp [hst]

/-- C5 witness: at the concrete store with one failed row, re-enqueuing resets that row
in place (same id 7, new title, error cleared) and inserts nothing. -/
theorem enqueue_semantics_witness :
    ({ exJobFailed with
       status := JobStatus.pending, title := some "new title", error := none,
       startedAt := none, completedAt := none } : QueueJob) ∈
        (enqueueRoute exDBFailed "https://wave.example/s7" (some "new title")).1.queue ∧
    (enqueueRoute exDBFailed "https://wave.example/s7" (some "new title")).1.queue.length = 1 := by
  have h := (enqueue_semantics exDBFailed "https://wave.example/s7" (some "new title")
    (by decide) (by decide)).2.1 exJobFailed (by decide) rfl
  exact ⟨h.1, h.2.2.trans rfl⟩

/-! ## Pipeline lemmas shared by the orchestrator claims -/

/-- No note row at all exists for a url that is neither processed nor skipped. -/
theorem aux_no_note (db : DB) (url : String)
    (hp : isSessionProcessed db url = false)
    (hs : isSessionSkipped db url = false) :
    findNoteByUrl db url = none := by
  unfold findNoteByUrl
  rw [List.find?_eq_none]
  intro n hn hpred
  cases hsk : n.skipped with
  | false =>
    have hproc : isSessionProcessed db url = true := by
      unfold isSessionProcessed
      rw [List.any_eq_true]
      exact ⟨n, hn, by rw [Bool.and_eq_true, hsk]; exact ⟨hpred, rfl⟩⟩
    rw [hproc] at hp
    exact absurd hp (by simp)
  | true =>
    have hskip : isSessionSkipped db url = true := by
      unfold isSessionSkipped
      rw [List.any_eq_true]
      exact ⟨n, hn, by rw [Bool.and_eq_true, hsk]; exact ⟨hpred, rfl⟩⟩
    rw [hskip] at hs
    exact absurd hs (by simp)

/-- The update-customer-timestamp epilogue of `addDiagramVersion` only touches the
customers table. -/
theorem aux_updmatch_frames (db4 : DB) (cid : Nat) :
    ((match getCustomer db4 cid with
      | some c => updateCustomer db4 cid c.name c.isUnknown
      | none => db4) : DB).versions = db4.versions ∧
    ((match getCustomer db4 cid with
      | some c => updateCustomer db4 cid c.name c.isUnknown
      | none => db4) : DB).notes = db4.notes ∧
    ((match getCustomer db4 cid with
      | some c => updateCustomer db4 cid c.name c.isUnknown
      | none => db4) : DB).actionItems = db4.actionItems ∧
    ((match getCustomer db4 cid with
      | some c => updateCustomer db4 cid c.name c.isUnknown
      | none => db4) : DB).nextNoteId = db4.nextNoteId ∧
    ((match getCustomer db4 cid with
      | some c => updateCustomer db4 cid c.name c.isUnknown
      | none => db4) : DB).nextActionItemId = db4.nextActionItemId := by
  cases getCustomer db4 cid <;> exact ⟨rfl, rfl, rfl, rfl, rfl⟩

/-- Shape of `addDiagramVersion`: a single version row is appended (fresh id, the given
code, NULL png path, the given notes), the notes/action-item tables are untouched, and
the returned `versionId` is the fresh id. -/
theorem aux_addDV_spec (db : DB) (n code : String) (su nts : Option String) (unk : Bool) :
    ∃ did vnum,
      (addDiagramVersion db n code su nts unk).1.versions =
        db.versions ++ [⟨db.nextVersionId, did, vnum, code, none, nts⟩] ∧
      (addDiagramVersion db n code su nts unk).1.notes = db.notes ∧
      (addDiagramVersion db n code su nts unk).1.actionItems = db.actionItems ∧
      (addDiagramVersion db n code su nts unk).1.nextNoteId = db.nextNoteId ∧
      (addDiagramVersion db n code su nts unk).1.nextActionItemId = db.nextActionItemId ∧
      (addDiagramVersion db n code su nts unk).2.versionId = db.nextVersionId := by
  cases unk with
  | true =>
    cases su <;>
      cases hgd : getDiagramByCustomer (createCustomer db n true).1 (createCustomer db n true).2 <;>
        (unfold addDiagramVersion
         simp only [if_true]
         rw [hgd]
         exact ⟨_, _, ((aux_updmatch_frames _ _).1).trans rfl,
           ((aux_updmatch_frames _ _).2.1).trans rfl,
           ((aux_updmatch_frames _ _).2.2.1).trans rfl,
           ((aux_updmatch_frames _ _).2.2.2.1).trans rfl,
           ((aux_updmatch_frames _ _).2.2.2.2).trans rfl, rfl⟩)
  | false =>
    cases hsc : (searchCustomers db n).head? with
    | some c =>
      cases su <;>
        cases hgd : getDiagramByCustomer db c.id <;>
          (unfold addDiagramVersion
           simp only [Bool.false_eq_true, if_false]
           rw [hsc]
           simp only
           rw [hgd]
           exact ⟨_, _, ((aux_updmatch_frames _ _).1).trans rfl,
             ((aux_updmatch_frames _ _).2.1).trans rfl,
             ((aux_updmatch_frames _ _).2.2.1).trans rfl,
             ((aux_updmatch_frames _ _).2.2.2.1).trans rfl,
             ((aux_updmatch_frames _ _).2.2.2.2).trans rfl, rfl⟩)
    | none =>
      cases su <;>
        cases hgd : getDiagramByCustomer (createCustomer db n false).1 (createCustomer db n false).2 <;>
          (unfold addDiagramVersion
           simp only [Bool.false_eq_true, if_false]
           rw [hsc]
           simp only
           rw [hgd]
           exact ⟨_, _, ((aux_updmatch_frames _ _).1).trans rfl,
             ((aux_updmatch_frames _ _).2.1).trans rfl,
             ((aux_updmatch_frames _ _).2.2.1).trans rfl,
             ((aux_updmatch_frames _ _).2.2.2.1).trans rfl,
             ((aux_updmatch_frames _ _).2.2.2.2).trans rfl, rfl⟩)

/-- `ensureCustomer` with an already-resolved customer id does nothing. -/
theorem aux_ensure_some (db : DB) (r : DiagResult) (nm : String) (cid : Nat)
    (h : r.customerId = some cid) : ensureCustomer db r nm = (db, r) := by
  unfold ensureCustomer
  rw [h]

/-- `ensureCustomer` never writes to any table other than customers, always resolves
some customer id, and preserves the diagram id of the result object. -/
theorem aux_ensure_facts (db : DB) (r : DiagResult) (nm : String) :
    (ensureCustomer db r nm).1.versions = db.versions ∧
    (ensureCustomer db r nm).1.diagrams = db.diagrams ∧
    (ensureCustomer db r nm).1.notes = db.notes ∧
    (ensureCustomer db r nm).1.actionItems = db.actionItems ∧
    (ensureCustomer db r nm).1.nextNoteId = db.nextNoteId ∧
    (ensureCustomer db r nm).1.nextActionItemId = db.nextActionItemId ∧
    (ensureCustomer db r nm).2.diagramId = r.diagramId ∧
    (ensureCustomer db r nm).2.customerId.isSome = true := by
  unfold ensureCustomer
  cases hr : r.customerId with
  | some cid => exact ⟨rfl, rfl, rfl, rfl, rfl, rfl, rfl, by simp [hr]⟩
  | none =>
    simp only
    cases hsc : (searchCustomers db
        (if nm == "" then "Unknown Customer" else nm)).head? with
    | some c => exact ⟨rfl, rfl, rfl, rfl, rfl, rfl, rfl, rfl⟩
    | none => exact ⟨rfl, rfl, rfl, rfl, rfl, rfl, rfl, rfl⟩

/-- `saveSessionNotes` when no row exists for the url: plain INSERT. -/
theorem aux_ssn_none (db : DB) (url : String) (cid : Option Nat) (ct : String)
    (title summary : Option String) (ai : Option (List OwnedItem))
    (comps gaps : Option (List String)) (sd : Option String)
    (hfn : findNoteByUrl db url = none) :
    saveSessionNotes db url cid ct title summary ai comps gaps sd =
      ({ db with
         notes := db.notes ++ [⟨db.nextNoteId, url, cid, ct, title, summary,
           some (ai.getD []), some (comps.getD []), some (gaps.getD []), false, sd⟩],
         nextNoteId := db.nextNoteId + 1,
         lastInsertRowid := db.nextNoteId }, .ok db.nextNoteId) := by
  unfold saveSessionNotes
  rw [hfn]

/-- `saveSessionNotes` only ever touches the notes table. -/
theorem aux_ssn_frames (db : DB) (url : String) (cid : Option Nat) (ct : String)
    (title summary : Option String) (ai : Option (List OwnedItem))
    (comps gaps : Option (List String)) (sd : Option String) :
    (saveSessionNotes db url cid ct title summary ai comps gaps sd).1.versions = db.versions ∧
    (saveSessionNotes db url cid ct title summary ai comps gaps sd).1.diagrams = db.diagrams ∧
    (saveSessionNotes db url cid ct title summary ai comps gaps sd).1.actionItems = db.actionItems ∧
    (saveSessionNotes db url cid ct title summary ai comps gaps sd).1.nextActionItemId = db.nextActionItemId := by
  unfold saveSessionNotes
  cases hfn : findNoteByUrl db url with
  | none => exact ⟨rfl, rfl, rfl, rfl⟩
  | some n =>
    cases hsk : n.skipped with
    | false => simp only [hsk]; exact ⟨rfl, rfl, rfl, rfl⟩
    | true => simp only [hsk]; exact ⟨rfl, rfl, rfl, rfl⟩

/-- The insert loop of `saveActionItemsFromSession`, characterized. -/
theorem aux_aifs_fold_actionItems (nid cid : Nat) (d t : Option String) :
    ∀ (items : List OwnedItem) (acc : DB × List Nat),
      (items.foldl (fun acc it =>
        let r := createActionItem acc.1 (some nid) cid (ownerOrUnknown it.owner) it.item d t
        (r.1, acc.2 ++ [r.2])) acc).1.actionItems =
      acc.1.actionItems ++ insertedItems acc.1.nextActionItemId nid cid d t items := by
  intro items
  induction items with
  | nil => intro acc; simp [insertedItems]
  | cons x xs ih =>
    intro acc
    rw [List.foldl_cons]
    rw [ih]
    show (acc.1.actionItems ++ [_]) ++ insertedItems (acc.1.nextActionItemId + 1) nid cid d t xs = _
    rw [List.append_assoc, List.singleton_append]
    rfl

/-- The insert loop leaves every other table and counter alone. -/
theorem aux_aifs_fold_frames (nid cid : Nat) (d t : Option String) :
    ∀ (items : List OwnedItem) (acc : DB × List Nat),
      (items.foldl (fun acc it =>
        let r := createActionItem acc.1 (some nid) cid (ownerOrUnknown it.owner) it.item d t
        (r.1, acc.2 ++ [r.2])) acc).1.versions = acc.1.versions ∧
      (items.foldl (fun acc it =>
        let r := createActionItem acc.1 (some nid) cid (ownerOrUnknown it.owner) it.item d t
        (r.1, acc.2 ++ [r.2])) acc).1.diagrams = acc.1.diagrams ∧
      (items.foldl (fun acc it =>
        let r := createActionItem acc.1 (some nid) cid (ownerOrUnknown it.owner) it.item d t
        (r.1, acc.2 ++ [r.2])) acc).1.notes = acc.1.notes := by
  intro items
  induction items with
  | nil => intro acc; exact ⟨rfl, rfl, rfl⟩
  | cons x xs ih =>
    intro acc
    rw [List.foldl_cons]
    exact ⟨((ih _).1).trans rfl, ((ih _).2.1).trans rfl, ((ih _).2.2).trans rfl⟩

/-- `saveActionItemsFromSession`: the note-s items are replaced — everything previously
attached to the note is deleted, the current set is inserted with fresh ids. -/
theorem aux_saveAIFS_actionItems (db : DB) (nid cid : Nat) (items : List OwnedItem)
    (d t : Option String) :
    (saveActionItemsFromSession db nid cid items d t).1.actionItems =
      db.actionItems.filter (fun a => !(a.sessionNoteId == some nid)) ++
      insertedItems db.nextActionItemId nid cid d t items :=
  aux_aifs_fold_actionItems nid cid d t items ⟨deleteActionItemsBySessionNote db nid, []⟩

theorem aux_saveAIFS_frames (db : DB) (nid cid : Nat) (items : List OwnedItem)
    (d t : Option String) :
    (saveActionItemsFromSession db nid cid items d t).1.versions = db.versions ∧
    (saveActionItemsFromSession db nid cid items d t).1.diagrams = db.diagrams ∧
    (saveActionItemsFromSession db nid cid items d t).1.notes = db.notes :=
  aux_aifs_fold_frames nid cid d t items ⟨deleteActionItemsBySessionNote db nid, []⟩

/-- Content of the inserted rows: owners (defaulted to Unknown) and texts come from the
analyzer items, in order. -/
theorem aux_insertedItems_map (nid cid : Nat) (d t : Option String) :
    ∀ (items : List OwnedItem) (id0 : Nat),
      (insertedItems id0 nid cid d t items).map (fun a => (a.owner, a.item)) =
        items.map (fun it => (ownerOrUnknown it.owner, it.item)) := by
  intro items
  induction items with
  | nil => intro id0; rfl
  | cons x xs ih => intro id0; simp [insertedItems, ih]

/-- Every inserted row points back at the note. -/
theorem aux_insertedItems_note (nid cid : Nat) (d t : Option String) :
    ∀ (items : List OwnedItem) (id0 : Nat) (a : ActionItem),
      a ∈ insertedItems id0 nid cid d t items → a.sessionNoteId = some nid := by
  intro items
  induction items with
  | nil => intro id0 a ha; simp [insertedItems] at ha
  | cons x xs ih =>
    intro id0 a ha
    rw [insertedItems] at ha
    rcases List.mem_cons.mp ha with h | h
    · subst h; rfl
    · exact ih _ a h

/-- `saveSessionData` when no note row exists: the note is inserted as a fresh
non-skipped row with the analyzer payload; versions/diagrams are untouched. -/
theorem aux_ssd_none (env : Env) (db : DB) (url : String) (r : DiagResult)
    (a : Analysis) (title : Option String)
    (hfn : findNoteByUrl db url = none) :
    (saveSessionData env db url r a title).2 = .ok db.nextNoteId ∧
    (saveSessionData env db url r a title).1.notes = db.notes ++
      [⟨db.nextNoteId, url, r.customerId, a.callType, title, some a.summary,
        some a.actionItems, some (a.components.getD []), some (a.gaps.getD []), false,
        some (sessionDateFor env url)⟩] ∧
    (saveSessionData env db url r a title).1.versions = db.versions ∧
    (saveSessionData env db url r a title).1.diagrams = db.diagrams := by
  unfold saveSessionData
  simp only
  rw [aux_ssn_none db url r.customerId a.callType title (some a.summary)
    (some a.actionItems) a.components a.gaps (some (sessionDateFor env url)) hfn]
  simp only
  cases hc : r.customerId with
  | none => exact ⟨rfl, rfl, rfl, rfl⟩
  | some cid =>
    simp only
    by_cases hl : 0 < a.actionItems.length
    · rw [if_pos hl]
      exact ⟨rfl, ((aux_saveAIFS_frames _ _ _ _ _ _).2.2).trans rfl,
        ((aux_saveAIFS_frames _ _ _ _ _ _).1).trans rfl,
        ((aux_saveAIFS_frames _ _ _ _ _ _).2.1).trans rfl⟩
    · rw [if_neg hl]
      exact ⟨rfl, rfl, rfl, rfl⟩

/-- `saveSessionData` never touches versions or diagrams. -/
theorem aux_ssd_frames (env : Env) (db : DB) (url : String) (r : DiagResult)
    (a : Analysis) (title : Option String) :
    (saveSessionData env db url r a title).1.versions = db.versions ∧
    (saveSessionData env db url r a title).1.diagrams = db.diagrams := by
  unfold saveSessionData
  simp only
  cases hs : saveSessionNotes db url r.customerId a.callType title (some a.summary)
      (some a.actionItems) a.components a.gaps (some (sessionDateFor env url)) with
  | mk db1 res =>
    have hdb1 : db1.versions = db.versions ∧ db1.diagrams = db.diagrams := by
      have h := aux_ssn_frames db url r.customerId a.callType title (some a.summary)
        (some a.actionItems) a.components a.gaps (some (sessionDateFor env url))
      rw [hs] at h
      exact ⟨h.1, h.2.1⟩
    cases res with
    | error e => exact hdb1
    | ok noteId =>
      cases hc : r.customerId with
      | none => exact hdb1
      | some cid =>
        simp only
        by_cases hl : 0 < a.actionItems.length
        · rw [if_pos hl]
          exact ⟨((aux_saveAIFS_frames _ _ _ _ _ _).1).trans hdb1.1,
            ((aux_saveAIFS_frames _ _ _ _ _ _).2.1).trans hdb1.2⟩
        · rw [if_neg hl]
          exact hdb1

/-- `saveSessionData` with a resolved customer and a non-empty item list: the rows now
attached to the saved note are exactly the fresh inserts for the current set, and rows
of other notes are untouched. -/
theorem aux_ssd_items (env : Env) (db : DB) (url : String) (r : DiagResult)
    (a : Analysis) (title : Option String) (cid nid : Nat)
    (hcid : r.customerId = some cid)
    (hne : ¬ a.actionItems = [])
    (hssn : (saveSessionNotes db url r.customerId a.callType title (some a.summary)
      (some a.actionItems) a.components a.gaps (some (sessionDateFor env url))).2 = .ok nid) :
    (saveSessionData env db url r a title).2 = .ok nid ∧
    (saveSessionData env db url r a title).1.actionItems =
      db.actionItems.filter (fun x => !(x.sessionNoteId == some nid)) ++
      insertedItems db.nextActionItemId nid cid (some (sessionDateFor env url)) title
        a.actionItems := by
  have hl : 0 < a.actionItems.length := List.length_pos.mpr hne
  unfold saveSessionData
  simp only
  cases hs : saveSessionNotes db url r.customerId a.callType title (some a.summary)
      (some a.actionItems) a.components a.gaps (some (sessionDateFor env url)) with
  | mk db1 res =>
    have hframes := aux_ssn_frames db url r.customerId a.callType title (some a.summary)
      (some a.actionItems) a.components a.gaps (some (sessionDateFor env url))
    rw [hs] at hframes hssn
    have hres : res = .ok nid := hssn
    subst hres
    rw [hcid]
    simp only
    rw [if_pos hl]
    refine ⟨rfl, ?_⟩
    rw [aux_saveAIFS_actionItems]
    rw [hframes.2.2.1, hframes.2.2.2]

/-- `createDiagramIfTechnical` on a technical call with a truthy payload that fails
validation: the payload is dropped, nothing is written, no ids are resolved. -/
theorem aux_cdit_invalid (env : Env) (analysis : Analysis) (nm : String) (unk : Bool)
    (url : String) (db : DB)
    (htech : analysis.callType = "technical")
    (hmc : strTruthy analysis.mermaidCode = true)
    (hv : env.validateOk = false) :
    createDiagramIfTechnical env analysis nm unk url db = (db, {}) := by
  unfold createDiagramIfTechnical
  rw [htech, hmc, hv]
  simp

/-- `createDiagramIfTechnical` on a valid payload whose PNG render throws: the version
is committed through `addDiagramVersion` and the result keeps png_path NULL. -/
theorem aux_cdit_renderfail (env : Env) (analysis : Analysis) (nm : String) (unk : Bool)
    (url : String) (db : DB)
    (htech : analysis.callType = "technical")
    (hmc : strTruthy analysis.mermaidCode = true)
    (hv : env.validateOk = true)
    (err : String) (hr : env.renderResult = .error err) :
    createDiagramIfTechnical env analysis nm unk url db =
      ((addDiagramVersion db nm (analysis.mermaidCode.getD "") (some url)
          (some ("Extracted from Wave session: " ++ url ++ "\n\nSummary: " ++ analysis.summary)) unk).1,
       { customerId := some (addDiagramVersion db nm (analysis.mermaidCode.getD "") (some url)
           (some ("Extracted from Wave session: " ++ url ++ "\n\nSummary: " ++ analysis.summary)) unk).2.customerId,
         diagramId := some (addDiagramVersion db nm (analysis.mermaidCode.getD "") (some url)
           (some ("Extracted from Wave session: " ++ url ++ "\n\nSummary: " ++ analysis.summary)) unk).2.diagramId,
         versionId := some (addDiagramVersion db nm (analysis.mermaidCode.getD "") (some url)
           (some ("Extracted from Wave session: " ++ url ++ "\n\nSummary: " ++ analysis.summary)) unk).2.versionId,
         version := some (addDiagramVersion db nm (analysis.mermaidCode.getD "") (some url)
           (some ("Extracted from Wave session: " ++ url ++ "\n\nSummary: " ++ analysis.summary)) unk).2.version,
         pngPath := none }) := by
  unfold createDiagramIfTechnical
  rw [htech, hmc, hv, hr]
  simp

/-- `processSession` under passing validations reduces to its three remaining steps. -/
theorem aux_processSession_steps (env : Env) (url : String) (title : Option String)
    (db : DB) (analysis : Analysis) (t : String)
    (hp : isSessionProcessed db url = false) (hs : isSessionSkipped db url = false)
    (hw : env.waveAuthenticated = true) (hx : env.perplexityConfigured = true)
    (ht : env.transcript = .ok t) (hlen : ¬ t.length < 100)
    (ha : env.analysis = .ok analysis) :
    processSession env url title db =
      (match saveSessionData env
          (ensureCustomer
            (createDiagramIfTechnical env analysis (jsStrOr analysis.customerName "Unknown Customer")
              (!(strTruthy analysis.customerName)) url db).1
            (createDiagramIfTechnical env analysis (jsStrOr analysis.customerName "Unknown Customer")
              (!(strTruthy analysis.customerName)) url db).2
            (jsStrOr analysis.customerName "Unknown Customer")).1 url
          (ensureCustomer
            (createDiagramIfTechnical env analysis (jsStrOr analysis.customerName "Unknown Customer")
              (!(strTruthy analysis.customerName)) url db).1
            (createDiagramIfTechnical env analysis (jsStrOr analysis.customerName "Unknown Customer")
              (!(strTruthy analysis.customerName)) url db).2
            (jsStrOr analysis.customerName "Unknown Customer")).2 analysis title with
       | (db3, .error e) => (db3, .error e)
       | (db3, .ok _noteId) =>
         (db3, .ok { callType := analysis.callType,
                     customerName := jsStrOr analysis.customerName "Unknown Customer",
                     customerId := (ensureCustomer
                       (createDiagramIfTechnical env analysis
                         (jsStrOr analysis.customerName "Unknown Customer")
                         (!(strTruthy analysis.customerName)) url db).1
                       (createDiagramIfTechnical env analysis
                         (jsStrOr analysis.customerName "Unknown Customer")
                         (!(strTruthy analysis.customerName)) url db).2
                       (jsStrOr analysis.customerName "Unknown Customer")).2.customerId,
                     diagramId := (ensureCustomer
                       (createDiagramIfTechnical env analysis
                         (jsStrOr analysis.customerName "Unknown Customer")
                         (!(strTruthy analysis.customerName)) url db).1
                       (createDiagramIfTechnical env analysis
                         (jsStrOr analysis.customerName "Unknown Customer")
                         (!(strTruthy analysis.customerName)) url db).2
                       (jsStrOr analysis.customerName "Unknown Customer")).2.diagramId,
                     summary := analysis.summary, actionItems := analysis.actionItems,
                     hasDiagram := (ensureCustomer
                       (createDiagramIfTechnical env analysis
                         (jsStrOr analysis.customerName "Unknown Customer")
                         (!(strTruthy analysis.customerName)) url db).1
                       (createDiagramIfTechnical env analysis
                         (jsStrOr analysis.customerName "Unknown Customer")
                         (!(strTruthy analysis.customerName)) url db).2
                       (jsStrOr analysis.customerName "Unknown Customer")).2.diagramId.isSome })) := by
  unfold processSession validateSession validateServices fetchTranscript
  rw [hp, hs, hw, hx, ht, ha]
  simp [hlen]

/-- `ensureCustomer` on a result record carrying a resolved customer id literal. -/
theorem aux_ensure_some_lit (db : DB) (nm : String) (x : Nat) (d v w : Option Nat)
    (p : Option String) :
    ensureCustomer db
      { customerId := some x, diagramId := d, versionId := v, version := w, pngPath := p } nm =
      (db, { customerId := some x, diagramId := d, versionId := v, version := w, pngPath := p }) := by
  unfold ensureCustomer
  rfl

/-! ## Claim C3: a committed DiagramVersion survives later failures -/

/-- C3: on a technical call with a valid payload whose PNG render throws, the version
row committed in step 5 persists in the final store with a NULL rendered-image path
while the pipeline still returns success; and no step executed after the commit
(`ensureCustomer`, `saveSessionData` — including its error exits) ever modifies the
`diagram_versions` table, so a throw at any later point cannot lose the row: there is
no all-or-nothing rollback. -/
theorem version_committed_survives_later_steps
    (env : Env) (url : String) (title : Option String) (db : DB)
    (analysis : Analysis) (t code err : String)
    (hp : isSessionProcessed db url = false)
    (hs : isSessionSkipped db url = false)
    (hw : env.waveAuthenticated = true)
    (hx : env.perplexityConfigured = true)
    (ht : env.transcript = .ok t)
    (hlen : ¬ t.length < 100)
    (ha : env.analysis = .ok analysis)
    (htech : analysis.callType = "technical")
    (hmc : analysis.mermaidCode = some code)
    (hcode : ¬ code = "")
    (hv : env.validateOk = true)
    (hr : env.renderResult = .error err) :
    (∃ res, (processSession env url title db).2 = .ok res ∧ res.hasDiagram = true) ∧
    (∃ v ∈ (processSession env url title db).1.versions,
      v.id = db.nextVersionId ∧ v.mermaidCode = code ∧ v.pngPath = none) ∧
    (∀ (db2 : DB) (u2 : String) (r2 : DiagResult) (a2 : Analysis) (t2 : Option String),
      (saveSessionData env db2 u2 r2 a2 t2).1.versions = db2.versions) ∧
    (∀ (db2 : DB) (r2 : DiagResult) (n2 : String),
      (ensureCustomer db2 r2 n2).1.versions = db2.versions) := by
  have hmcT : strTruthy analysis.mermaidCode = true := by
    rw [hmc]
    unfold strTruthy
    simp [hcode]
  have hstep := aux_processSession_steps env url title db analysis t hp hs hw hx ht hlen ha
  have hcd := aux_cdit_renderfail env analysis (jsStrOr analysis.customerName "Unknown Customer")
    (!(strTruthy analysis.customerName)) url db htech hmcT hv err hr
  obtain ⟨did, vnum, hver, hnotes, hitems, hnid, haid, hvid⟩ :=
    aux_addDV_spec db (jsStrOr analysis.customerName "Unknown Customer")
      (analysis.mermaidCode.getD "") (some url)
      (some ("Extracted from Wave session: " ++ url ++ "\n\nSummary: " ++ analysis.summary))
      (!(strTruthy analysis.customerName))
  rw [hstep, hcd, aux_ensure_some_lit]
  set A := addDiagramVersion db (jsStrOr analysis.customerName "Unknown Customer")
    (analysis.mermaidCode.getD "") (some url)
    (some ("Extracted from Wave session: " ++ url ++ "\n\nSummary: " ++ analysis.summary))
    (!(strTruthy analysis.customerName)) with hA
  set R : DiagResult :=
    { customerId := some A.2.customerId
      diagramId := some A.2.diagramId
      versionId := some A.2.versionId
      version := some A.2.version
      pngPath := none } with hR
  have hfn : findNoteByUrl A.1 url = none := by
    unfold findNoteByUrl
    rw [hnotes]
    have h0 := aux_no_note db url hp hs
    unfold findNoteByUrl at h0
    exact h0
  have hssd := aux_ssd_none env A.1 url R analysis title hfn
  cases hsd : saveSessionData env A.1 url R analysis title with
  | mk db3 res =>
    rw [hsd] at hssd
    have hres : res = .ok A.1.nextNoteId := hssd.1
    subst hres
    have hv3 : db3.versions = db.versions ++
        [⟨db.nextVersionId, did, vnum, analysis.mermaidCode.getD "", none,
          some ("Extracted from Wave session: " ++ url ++ "\n\nSummary: " ++ analysis.summary)⟩] := by
      have hf := (aux_ssd_frames env A.1 url R analysis title).1
      rw [hsd] at hf
      rw [hf, hver]
    refine ⟨⟨_, rfl, rfl⟩, ?_, ?_, ?_⟩
    · refine ⟨⟨db.nextVersionId, did, vnum, analysis.mermaidCode.getD "", none,
        some ("Extracted from Wave session: " ++ url ++ "\n\nSummary: " ++ analysis.summary)⟩, ?_, rfl, ?_, rfl⟩
      · show _ ∈ db3.versions
        rw [hv3]
        exact List.mem_append_right _ (List.mem_singleton.mpr rfl)
      · show analysis.mermaidCode.getD "" = code
        rw [hmc]
        rfl
    · exact fun db2 u2 r2 a2 t2 => (aux_ssd_frames env db2 u2 r2 a2 t2).1
    · exact fun db2 r2 n2 => (aux_ensure_facts db2 r2 n2).1

/-- C3 witness: a concrete run against the empty store whose render call throws still
returns success and leaves version row 1 with a NULL png path. -/
theorem version_committed_survives_witness :
    (∃ res, (processSession envRenderFails "https://wave.example/s9" (some "Call T")
        exDBEmpty).2 = .ok res ∧ res.hasDiagram = true) ∧
    (∃ v ∈ (processSession envRenderFails "https://wave.example/s9" (some "Call T")
        exDBEmpty).1.versions,
      v.id = 1 ∧ v.mermaidCode = "flowchart TB\n  A --> B" ∧ v.pngPath = none) := by
  have h := version_committed_survives_later_steps envRenderFails "https://wave.example/s9"
    (some "Call T") exDBEmpty exAnalysisTech (String.mk (List.replicate 100 'x'))
    "flowchart TB\n  A --> B" "Failed to render diagram: boom"
    rfl rfl rfl rfl rfl (by decide) rfl rfl rfl (by decide) rfl rfl
  exact ⟨h.1, h.2.1⟩

/-! ## Claim C6: an invalid diagram payload is not fatal -/

/-- C6: on a technical call whose diagram payload fails the renderer validation, the
payload is dropped without aborting: the pipeline returns success with
hasDiagram = false and a resolved customer, no Diagram or DiagramVersion row is
created, and the SessionNote (with the analyzer payload) and the ActionItems are still
persisted. -/
theorem invalid_payload_not_fatal
    (env : Env) (url : String) (title : Option String) (db : DB)
    (analysis : Analysis) (t code : String)
    (hp : isSessionProcessed db url = false)
    (hs : isSessionSkipped db url = false)
    (hw : env.waveAuthenticated = true)
    (hx : env.perplexityConfigured = true)
    (ht : env.transcript = .ok t)
    (hlen : ¬ t.length < 100)
    (ha : env.analysis = .ok analysis)
    (htech : analysis.callType = "technical")
    (hmc : analysis.mermaidCode = some code)
    (hcode : ¬ code = "")
    (hv : env.validateOk = false)
    (hne : ¬ analysis.actionItems = []) :
    (∃ res, (processSession env url title db).2 = .ok res ∧ res.hasDiagram = false ∧
      res.customerId.isSome = true) ∧
    (processSession env url title db).1.diagrams = db.diagrams ∧
    (processSession env url title db).1.versions = db.versions ∧
    (∃ cid,
      findNoteByUrl (processSession env url title db).1 url = some
        ⟨db.nextNoteId, url, some cid, "technical", title, some analysis.summary,
         some analysis.actionItems, some (analysis.components.getD []),
         some (analysis.gaps.getD []), false, some (sessionDateFor env url)⟩ ∧
      (((processSession env url title db).1.actionItems.filter
          (fun x => x.sessionNoteId == some db.nextNoteId)).map (fun x => (x.owner, x.item))) =
        analysis.actionItems.map (fun it => (ownerOrUnknown it.owner, it.item))) := by
  have hmcT : strTruthy analysis.mermaidCode = true := by
    rw [hmc]
    unfold strTruthy
    simp [hcode]
  have hstep := aux_processSession_steps env url title db analysis t hp hs hw hx ht hlen ha
  have hcd := aux_cdit_invalid env analysis (jsStrOr analysis.customerName "Unknown Customer")
    (!(strTruthy analysis.customerName)) url db htech hmcT hv
  rw [hstep, hcd]
  set E := ensureCustomer db {} (jsStrOr analysis.customerName "Unknown Customer") with hE
  have hEf := aux_ensure_facts db {} (jsStrOr analysis.customerName "Unknown Customer")
  rw [← hE] at hEf
  obtain ⟨cid, hcid⟩ : ∃ cid, E.2.customerId = some cid :=
    Option.isSome_iff_exists.mp hEf.2.2.2.2.2.2.2
  have hfnE : findNoteByUrl E.1 url = none := by
    unfold findNoteByUrl
    rw [hEf.2.2.1]
    have h0 := aux_no_note db url hp hs
    unfold findNoteByUrl at h0
    exact h0
  have hssd := aux_ssd_none env E.1 url E.2 analysis title hfnE
  have hssn : (saveSessionNotes E.1 url E.2.customerId analysis.callType title
      (some analysis.summary) (some analysis.actionItems) analysis.components analysis.gaps
      (some (sessionDateFor env url))).2 = .ok E.1.nextNoteId := by
    rw [aux_ssn_none E.1 url E.2.customerId analysis.callType title (some analysis.summary)
      (some analysis.actionItems) analysis.components analysis.gaps
      (some (sessionDateFor env url)) hfnE]
  have hitems := aux_ssd_items env E.1 url E.2 analysis title cid E.1.nextNoteId hcid hne hssn
  cases hsd : saveSessionData env E.1 url E.2 analysis title with
  | mk db3 res =>
    rw [hsd] at hssd hitems
    have hres : res = .ok E.1.nextNoteId := hssd.1
    subst hres
    refine ⟨⟨_, rfl, ?_, ?_⟩, ?_, ?_, ?_⟩
    · show E.2.diagramId.isSome = false
      rw [hEf.2.2.2.2.2.2.1]
      rfl
    · show E.2.customerId.isSome = true
      rw [hcid]
      rfl
    · show db3.diagrams = db.diagrams
      exact hssd.2.2.2.trans hEf.2.1
    · show db3.versions = db.versions
      exact hssd.2.2.1.trans hEf.1
    · refine ⟨cid, ?_, ?_⟩
      · show findNoteByUrl db3 url = _
        unfold findNoteByUrl
        rw [hssd.2.1, hEf.2.2.1]
        rw [aux_find?_append_none _ _ ?hfront]
        case hfront =>
          have h0 := aux_no_note db url hp hs
          unfold findNoteByUrl at h0
          exact h0
        rw [hEf.2.2.2.2.1, hcid, htech]
        simp [List.find?]
      · show ((db3.actionItems.filter
            (fun x => x.sessionNoteId == some db.nextNoteId)).map (fun x => (x.owner, x.item))) = _
        have hnid : E.1.nextNoteId = db.nextNoteId := hEf.2.2.2.2.1
        rw [hitems.2, hEf.2.2.2.1, hnid, hEf.2.2.2.2.2.1]
        rw [List.filter_append, aux_filter_filter_not, List.nil_append]
        rw [List.filter_eq_self.mpr ?hall]
        case hall =>
          intro x hx
          have hxn := aux_insertedItems_note db.nextNoteId cid
            (some (sessionDateFor env url)) title analysis.actionItems db.nextActionItemId x hx
          simp [hxn]
        exact aux_insertedItems_map db.nextNoteId cid (some (sessionDateFor env url)) title
          analysis.actionItems db.nextActionItemId

/-- C6 witness: the concrete invalid-payload run against the empty store succeeds with
hasDiagram = false, creates no diagram rows, and persists the note and its item. -/
theorem invalid_payload_not_fatal_witness :
    (∃ res, (processSession envInvalidDiagram "https://wave.example/s9" (some "Call T")
        exDBEmpty).2 = .ok res ∧ res.hasDiagram = false ∧ res.customerId.isSome = true) ∧
    (processSession envInvalidDiagram "https://wave.example/s9" (some "Call T")
        exDBEmpty).1.versions = exDBEmpty.versions := by
  have h := invalid_payload_not_fatal envInvalidDiagram "https://wave.example/s9"
    (some "Call T") exDBEmpty exAnalysisTech (String.mk (List.replicate 100 'x'))
    "flowchart TB\n  A --> B"
    rfl rfl rfl rfl rfl (by decide) rfl rfl rfl (by decide) rfl (by decide)
  exact ⟨h.1, h.2.2.1⟩

/-! ## Claim C7: re-persisting replaces a note-s action items -/

/-- C7 counterexample: `exNote` was processed earlier leaving `exItem`; re-persisting
the same session with an analyzer output whose action-item list is EMPTY leaves the old
item in place (the replace-all is skipped when the list is empty), so the surviving
items are not the latest run-s (empty) set. -/
theorem empty_item_list_not_replaced :
    exAnalysisEmpty.actionItems = [] ∧
    exItem.sessionNoteId = some 1 ∧
    (saveSessionData envInvalidDiagram exDBProcessed "https://wave.example/s0"
      { customerId := some 1 } exAnalysisEmpty (some "T2")).2 = .ok 1 ∧
    (saveSessionData envInvalidDiagram exDBProcessed "https://wave.example/s0"
      { customerId := some 1 } exAnalysisEmpty (some "T2")).1.actionItems = [exItem] := by
  refine ⟨rfl, rfl, ?_, ?_⟩ <;> decide

/-- C7 amended: when the run resolved a customer and the analyzer returned a NON-EMPTY
action-item list, persisting replaces all ActionItems of the note: afterwards the rows
attached to the note are exactly the latest run-s set (owners defaulted to Unknown),
and rows of other notes are untouched.  With an empty list (or no resolved customer)
the replace-all is skipped and previously stored items survive (see counterexample). -/
theorem replace_actionItems_amended (env : Env) (db : DB) (url : String) (r : DiagResult)
    (a : Analysis) (title : Option String) (cid nid : Nat)
    (hcid : r.customerId = some cid)
    (hne : ¬ a.actionItems = [])
    (hssn : (saveSessionNotes db url r.customerId a.callType title (some a.summary)
      (some a.actionItems) a.components a.gaps (some (sessionDateFor env url))).2 = .ok nid) :
    (saveSessionData env db url r a title).2 = .ok nid ∧
    (((saveSessionData env db url r a title).1.actionItems.filter
        (fun x => x.sessionNoteId == some nid)).map (fun x => (x.owner, x.item))) =
      a.actionItems.map (fun it => (ownerOrUnknown it.owner, it.item)) ∧
    ((saveSessionData env db url r a title).1.actionItems.filter
        (fun x => !(x.sessionNoteId == some nid))) =
      db.actionItems.filter (fun x => !(x.sessionNoteId == some nid)) := by
  have h := aux_ssd_items env db url r a title cid nid hcid hne hssn
  refine ⟨h.1, ?_, ?_⟩
  · rw [h.2]
    rw [List.filter_append, aux_filter_filter_not, List.nil_append]
    rw [List.filter_eq_self.mpr ?hall]
    case hall =>
      intro x hx
      have hxn := aux_insertedItems_note nid cid (some (sessionDateFor env url)) title
        a.actionItems db.nextActionItemId x hx
      simp [hxn]
    exact aux_insertedItems_map nid cid (some (sessionDateFor env url)) title
      a.actionItems db.nextActionItemId
  · rw [h.2]
    rw [List.filter_append]
    have hz : (insertedItems db.nextActionItemId nid cid (some (sessionDateFor env url))
        title a.actionItems).filter (fun x => !(x.sessionNoteId == some nid)) = [] := by
      rw [List.filter_eq_nil_iff]
      intro x hx
      have hxn := aux_insertedItems_note nid cid (some (sessionDateFor env url)) title
        a.actionItems db.nextActionItemId x hx
      simp [hxn]
    rw [hz, List.append_nil]
    simp only [List.filter_filter, Bool.and_self]

/-- C7 amended, witness: re-persisting the processed session with one new item replaces
the old item of note 1. -/
theorem replace_actionItems_amended_witness :
    (saveSessionData envInvalidDiagram exDBProcessed "https://wave.example/s0"
      { customerId := some 1 } exAnalysisTech (some "T2")).2 = .ok 1 ∧
    (((saveSessionData envInvalidDiagram exDBProcessed "https://wave.example/s0"
        { customerId := some 1 } exAnalysisTech (some "T2")).1.actionItems.filter
        (fun x => x.sessionNoteId == some 1)).map (fun x => (x.owner, x.item))) =
      [("Stephen", "do the thing")] := by
  have h := replace_actionItems_amended envInvalidDiagram exDBProcessed
    "https://wave.example/s0" { customerId := some 1 } exAnalysisTech (some "T2") 1 1
    rfl (by decide) (by decide)
  exact ⟨h.1, h.2.1.trans (by decide)⟩

end InfraDiagram
